import Mathlib

/-!
# OHLCV service of the AMP matching engine

A shallow embedding of `services/ohlcv.go` and `services/trade.go`:
the bucket alignment `getModTime`, the trade filter `getMatchQuery`, the
group stage built by `getGroupAddFieldBson`, the query `GetOHLCV` and the
subscription entry points, followed by the properties established about them.

Conventions.
* Go `int64` values are integers in `[-2^63, 2^63)`; every arithmetic
  operation of the source is followed by `wrapInt64`.
* A `float64` obtained from an `int64` is always integer valued, so such a
  float is represented by the integer it denotes (`Float64.num`) or `NaN`.
* The wall clock (`time.Now()`) is an explicit argument.
-/

namespace OHLCV

/-! ## Machine arithmetic -/

/-- Two's complement wrap-around of a Go `int64` result. -/
def wrapInt64 (x : Int) : Int :=
  (x + 9223372036854775808) % 18446744073709551616 - 9223372036854775808

/-- Number of low bits dropped when a natural number `a < 2^(53+fuel)` is
rounded to a 53 bit significand: the least `e` with `a < 2^(53+e)`. -/
def droppedBits (a : Nat) : Nat → Nat
  | 0 => 0
  | fuel + 1 => if a < 9007199254740992 then 0 else droppedBits (a / 2) fuel + 1

/-- Round a natural number to the nearest number with a 53 bit significand,
ties to even (IEEE 754 binary64, the conversion `float64(x)` of Go). -/
def roundNat53 (a : Nat) : Nat :=
  let e := droppedBits a 11
  let q := a / 2 ^ e
  let r := a % 2 ^ e
  let q' := if 2 * r > 2 ^ e ∨ (2 * r = 2 ^ e ∧ q % 2 = 1) then q + 1 else q
  q' * 2 ^ e

/-- Values of Go `float64` that arise from converted `int64` operands:
an integer valued number or `NaN`. -/
inductive Float64 where
  | nan : Float64
  | num (v : Int) : Float64
  deriving DecidableEq, Repr

/-- Conversion `float64(x)` of an `int64` value. -/
def toFloat64 (x : Int) : Float64 :=
  if 0 ≤ x then Float64.num (roundNat53 x.toNat) else Float64.num (-(roundNat53 (-x).toNat))

/-- Go `math.Mod(x, y)`: the floating-point remainder of `x / y`, exact, with
the sign of `x`; `NaN` when `y` is zero or an operand is `NaN`. -/
def mathMod : Float64 → Float64 → Float64
  | Float64.num x, Float64.num y => if y = 0 then Float64.nan else Float64.num (Int.tmod x y)
  | _, _ => Float64.nan

/-- Readings of `time.Now()` used by the service, and the value the platform
gives to the conversion `int64(NaN)` (implementation dependent in Go). -/
structure Clock where
  unix : Int
  year : Int
  month : Int
  nanInt64 : Int
  deriving Repr

/-- Conversion `int64(f)` of a `float64`. -/
def toInt64 (clk : Clock) : Float64 → Int
  | Float64.nan => clk.nanInt64
  | Float64.num v => wrapInt64 v

/-! ## Go `time.Date` on UTC midnights -/

/-- Go `isLeap`. -/
def isLeap (year : Int) : Bool :=
  year % 4 = 0 ∧ (year % 100 ≠ 0 ∨ year % 400 = 0)

/-- Go `daysBefore[m]`: days in a non-leap year before month `m + 1`. -/
def daysBefore (m : Int) : Int :=
  if m = 0 then 0 else if m = 1 then 31 else if m = 2 then 59 else if m = 3 then 90
  else if m = 4 then 120 else if m = 5 then 151 else if m = 6 then 181
  else if m = 7 then 212 else if m = 8 then 243 else if m = 9 then 273
  else if m = 10 then 304 else if m = 11 then 334 else 365

/-- Days from 0001-01-01 to `time.Date(year, month, day, 0, 0, 0, 0, time.UTC)`:
the month is normalised into the year first, then whole years, the days
before the month, the leap day and `day - 1` are added, as `time.Date` does. -/
def dateDays (year month day : Int) : Int :=
  let m := month - 1
  let y := year + m / 12
  let m := m % 12
  let c := y - 1
  365 * c + c / 4 - c / 100 + c / 400 + daysBefore m
    + (if isLeap y ∧ 2 ≤ m then 1 else 0) + (day - 1)

/-- Go `absDate` for a day count from 0001-01-01: peel off 400, 100, 4 and 1
year cycles; returns the year and the zero-based day within the year. -/
def absDate (days : Int) : Int × Int :=
  let n400 := days / 146097
  let d := days - 146097 * n400
  let n := d / 36524
  let n100 := n - n / 4
  let d := d - 36524 * n100
  let n4 := d / 1461
  let d := d - 1461 * n4
  let n := d / 365
  let n1 := n - n / 4
  let yday := d - 365 * n1
  (400 * n400 + 100 * n100 + 4 * n4 + n1 + 1, yday)

/-- Go `Time.Day()` for a day count from 0001-01-01: the day of the month that
`date` derives from the year and the day within the year. -/
def dayOfMonth (days : Int) : Int :=
  let year := (absDate days).1
  let yday := (absDate days).2
  if isLeap year ∧ yday = 31 + 29 - 1 then 29
  else
    let day := if isLeap year ∧ yday > 31 + 29 - 1 then yday - 1 else yday
    let month := day / 31
    let fin := daysBefore (month + 1)
    let start := if day ≥ fin then fin else daysBefore month
    day - start + 1

/-! ## Bucket alignment -/

/-- The statement shared by every recognised case of `getModTime`:
`ts - int64(math.Mod(float64(ts), float64(intervalInSeconds)))`. -/
def modAlign (clk : Clock) (ts intervalInSeconds : Int) : Int :=
  wrapInt64 (ts - toInt64 clk (mathMod (toFloat64 ts) (toFloat64 intervalInSeconds)))

/-- The `d` of the `"month"` case:
`time.Date(Now().Year(), Now().Month()+1, 1, 0, 0, 0, 0, UTC).Day()`. -/
def monthCaseDays (clk : Clock) : Int :=
  dayOfMonth (dateDays clk.year (clk.month + 1) 1)

/-- The `d` of the `"year"` case:
`Date(Now().Year()+1, 1, 1, ...).Sub(Date(Now().Year(), 0, 0, ...)).Hours() / 24`
converted with `int64`; both operands are UTC midnights, so the quotient is
the whole number of days between them. -/
def yearCaseDays (clk : Clock) : Int :=
  wrapInt64 ((dateDays (clk.year + 1) 1 1 - dateDays clk.year 0 0) * 24 / 24)

/-- Go `getModTime(ts, interval, unit)`; returns `(modTime, intervalInSeconds)`.
An unmatched `switch` leaves both results at their zero value. -/
def getModTime (clk : Clock) (ts interval : Int) (unit : String) : Int × Int :=
  if unit = "sec" then
    let intervalInSeconds := interval
    (modAlign clk ts intervalInSeconds, intervalInSeconds)
  else if unit = "hour" then
    let intervalInSeconds := wrapInt64 (wrapInt64 (interval * 60) * 60)
    (modAlign clk ts intervalInSeconds, intervalInSeconds)
  else if unit = "day" then
    let intervalInSeconds := wrapInt64 (wrapInt64 (wrapInt64 (interval * 24) * 60) * 60)
    (modAlign clk ts intervalInSeconds, intervalInSeconds)
  else if unit = "week" then
    let intervalInSeconds :=
      wrapInt64 (wrapInt64 (wrapInt64 (wrapInt64 (interval * 7) * 24) * 60) * 60)
    (modAlign clk ts intervalInSeconds, intervalInSeconds)
  else if unit = "month" then
    let d := monthCaseDays clk
    let intervalInSeconds :=
      wrapInt64 (wrapInt64 (wrapInt64 (wrapInt64 (interval * d) * 24) * 60) * 60)
    (modAlign clk ts intervalInSeconds, intervalInSeconds)
  else if unit = "year" then
    let d := yearCaseDays clk
    let intervalInSeconds :=
      wrapInt64 (wrapInt64 (wrapInt64 (wrapInt64 (interval * d) * 24) * 60) * 60)
    (modAlign clk ts intervalInSeconds, intervalInSeconds)
  else if unit = "min" then
    let intervalInSeconds := wrapInt64 (interval * 60)
    (modAlign clk ts intervalInSeconds, intervalInSeconds)
  else (0, 0)

/-! ## BSON documents of the aggregation pipeline -/

/-- An Ethereum address (`common.Address`). -/
structure Address where
  value : Nat
  deriving DecidableEq, Repr

/-- Go `types.PairAddresses`. -/
structure PairAddresses where
  BaseToken : Address
  QuoteToken : Address
  deriving DecidableEq, Repr

/-- A stored trade as the pipeline reads it. `pricepoint` and `amount` are
the numbers denoted by the stored text, which `$toDecimal` turns into exact
decimals; `createdAt` is a BSON date, an instant in milliseconds. -/
structure Trade where
  createdAt : Int
  status : String
  pairName : String
  baseToken : String
  quoteToken : String
  pricepoint : ℚ
  amount : ℚ

/-- The date operand of a date operator in `getGroupAddFieldBson`:
`time.Now()` when the key is `"now"`, otherwise the key itself (a field path). -/
inductive DateArg where
  | now : DateArg
  | path (key : String) : DateArg
  deriving DecidableEq, Repr

/-- The date operators used by `getGroupAddFieldBson`. -/
inductive DateOp where
  | year | month | dayOfMonth | hour | minute | second | isoWeek | isoWeekYear
  deriving DecidableEq, Repr

/-- The aggregation expressions built by `getGroupAddFieldBson`. -/
inductive Expr where
  | dateOp (op : DateOp) (date : DateArg) : Expr
  | int64 (n : Int) : Expr
  | path (p : String) : Expr
  | subtract (a b : Expr) : Expr
  | mod (a b : Expr) : Expr
  | multiply (a b : Expr) : Expr
  | divide (a b : Expr) : Expr
  | ceil (a : Expr) : Expr
  deriving DecidableEq, Repr

/-- The accumulators of the `$group` stage. -/
inductive Accumulator where
  | sumConst (c : ℚ) : Accumulator
  | sum (field : String) : Accumulator
  | max (field : String) : Accumulator
  | min (field : String) : Accumulator
  | first (field : String) : Accumulator
  | last (field : String) : Accumulator
  deriving DecidableEq, Repr

/-- The `$group` document: the accumulator fields and the `_id` document. -/
structure GroupDoc where
  fields : List (String × Accumulator)
  id : List (String × Expr)
  deriving DecidableEq, Repr

/-- The `$addFields` document of `getGroupAddFieldBson`:
`ts = $dateFromParts{parts} - t` with `t = time.Unix(0, 0)`. -/
structure AddFieldsDoc where
  dateFromParts : List (String × String)
  minus : Int
  deriving DecidableEq, Repr

/-- One `{"baseToken": ..., "quoteToken": ...}` document of the `$and` list. -/
structure PairDoc where
  baseToken : String
  quoteToken : String
  deriving DecidableEq, Repr

/-- The document built by `getMatchQuery`. `or` is absent (`none`) when the
key `"$or"` is not set; each entry of `or` is one `{"$and": [...]}` document. -/
structure MatchDoc where
  createdAtGte : Int
  createdAtLt : Int
  statusIn : List String
  or : Option (List (List PairDoc))
  deriving DecidableEq, Repr

/-- The stages of the pipeline assembled by `GetOHLCV`. The fifth stage is the
`addFields` map returned by `getGroupAddFieldBson`, which is `nil` (`none`)
when no case of its `switch` was taken. -/
inductive Stage where
  | matchStage (m : MatchDoc) : Stage
  | sort (field : String) (direction : Int) : Stage
  | toDecimal (fields : List (String × String)) : Stage
  | group (g : GroupDoc) : Stage
  | addFields (a : Option AddFieldsDoc) : Stage
  deriving DecidableEq, Repr

/-! ## `getMatchQuery` -/

/-- Go `time.Unix(sec, 0)` as the BSON date the driver writes for it: the
`int64` product `Unix() * 1000`, milliseconds since the epoch. -/
def timeUnix (sec : Int) : Int := wrapInt64 (sec * 1000)

/-- Go `getMatchQuery(start, end, pairs...)`; `hex` is `common.Address.Hex`. -/
def getMatchQuery (hex : Address → String) (start stop : Int) (pairs : List PairAddresses) :
    MatchDoc :=
  let m : MatchDoc :=
    { createdAtGte := start, createdAtLt := stop, statusIn := ["SUCCESS"], or := none }
  if pairs.length ≥ 1 then
    let or := pairs.foldl
      (fun or pair => or ++ [[{ baseToken := hex pair.BaseToken,
                                quoteToken := hex pair.QuoteToken : PairDoc }]])
      []
    { m with or := some or }
  else m

/-- A trade satisfies a `{"baseToken": b, "quoteToken": q}` document. -/
def PairDoc.holds (d : PairDoc) (t : Trade) : Bool :=
  t.baseToken = d.baseToken ∧ t.quoteToken = d.quoteToken

/-- MongoDB `$match` on a trade: every key of the document must hold;
`$gte`/`$lt` bound `createdAt`, `$in` lists the admitted statuses, `$or` asks
for one entry whose `$and` list holds entirely. -/
def MatchDoc.accepts (m : MatchDoc) (t : Trade) : Bool :=
  decide (m.createdAtGte ≤ t.createdAt) && decide (t.createdAt < m.createdAtLt)
    && m.statusIn.contains t.status
    && (match m.or with
        | none => true
        | some clauses => clauses.any fun conj => conj.all fun d => d.holds t)

/-! ## `getGroupAddFieldBson` -/

/-- The expression `{"$subtract": [{op: date}, {"$mod": [{op: date}, duration]}]}`
used for the time component of every unit except `"month"`. -/
def floorToMultiple (op : DateOp) (date : DateArg) (duration : Int) : Expr :=
  Expr.subtract (Expr.dateOp op date) (Expr.mod (Expr.dateOp op date) (Expr.int64 duration))

/-- Go `getGroupAddFieldBson(key, units, duration)`; returns `(group, addFields)`.
`addFields` stays `nil` (`none`) and the group id holds no time component when
no case of the `switch` is taken. -/
def getGroupAddFieldBson (key units : String) (duration : Int) :
    GroupDoc × Option AddFieldsDoc :=
  let t := timeUnix 0
  let date := if key = "now" then DateArg.now else DateArg.path key
  let decimal1 : ℚ := 1
  let group : List (String × Accumulator) :=
    [("count", Accumulator.sumConst decimal1),
     ("h", Accumulator.max "$priceDecimal"),
     ("l", Accumulator.min "$priceDecimal"),
     ("o", Accumulator.first "$priceDecimal"),
     ("c", Accumulator.last "$priceDecimal"),
     ("v", Accumulator.sum "$amountDecimal")]
  let res : List (String × Expr) × Option AddFieldsDoc :=
    if units = "sec" then
      ([("year", Expr.dateOp DateOp.year date),
        ("day", Expr.dateOp DateOp.dayOfMonth date),
        ("month", Expr.dateOp DateOp.month date),
        ("hour", Expr.dateOp DateOp.hour date),
        ("minute", Expr.dateOp DateOp.minute date),
        ("second", floorToMultiple DateOp.second date duration)],
       some { dateFromParts :=
                [("year", "$_id.year"), ("month", "$_id.month"), ("day", "$_id.day"),
                 ("hour", "$_id.hour"), ("minute", "$_id.minute"), ("second", "$_id.second")],
              minus := t })
    else if units = "min" then
      ([("year", Expr.dateOp DateOp.year date),
        ("day", Expr.dateOp DateOp.dayOfMonth date),
        ("month", Expr.dateOp DateOp.month date),
        ("hour", Expr.dateOp DateOp.hour date),
        ("minute", floorToMultiple DateOp.minute date duration)],
       some { dateFromParts :=
                [("year", "$_id.year"), ("month", "$_id.month"), ("day", "$_id.day"),
                 ("hour", "$_id.hour"), ("minute", "$_id.minute")],
              minus := t })
    else if units = "hour" then
      ([("year", Expr.dateOp DateOp.year date),
        ("day", Expr.dateOp DateOp.dayOfMonth date),
        ("month", Expr.dateOp DateOp.month date),
        ("hour", floorToMultiple DateOp.hour date duration)],
       some { dateFromParts :=
                [("year", "$_id.year"), ("month", "$_id.month"), ("day", "$_id.day"),
                 ("hour", "$_id.hour")],
              minus := t })
    else if units = "day" then
      ([("year", Expr.dateOp DateOp.year date),
        ("month", Expr.dateOp DateOp.month date),
        ("day", floorToMultiple DateOp.dayOfMonth date duration)],
       some { dateFromParts :=
                [("year", "$_id.year"), ("month", "$_id.month"), ("day", "$_id.day")],
              minus := t })
    else if units = "week" then
      ([("year", Expr.dateOp DateOp.isoWeekYear date),
        ("isoWeek", floorToMultiple DateOp.isoWeek date duration)],
       some { dateFromParts := [("isoWeekYear", "$_id.year"), ("isoWeek", "$_id.isoWeek")],
              minus := t })
    else if units = "month" then
      ([("year", Expr.dateOp DateOp.year date),
        ("month",
          Expr.subtract
            (Expr.multiply
              (Expr.ceil (Expr.divide (Expr.dateOp DateOp.month date) (Expr.int64 duration)))
              (Expr.int64 duration))
            (Expr.int64 (wrapInt64 (duration - 1))))],
       some { dateFromParts := [("year", "$_id.year"), ("month", "$_id.month")],
              minus := t })
    else if units = "year" then
      ([("year", floorToMultiple DateOp.year date duration)],
       some { dateFromParts := [("year", "$_id.year")], minus := t })
    else ([], none)
  let groupID := res.1 ++
    [("pair", Expr.path "$pairName"), ("baseToken", Expr.path "$baseToken"),
     ("quoteToken", Expr.path "$quoteToken")]
  ({ fields := group, id := groupID }, res.2)

/-! ## Evaluation of the MongoDB expressions and accumulators -/

/-- Calendar fields (UTC) of the date a date operator is applied to. -/
structure DateParts where
  year : Int
  month : Int
  dayOfMonth : Int
  hour : Int
  minute : Int
  second : Int
  isoWeek : Int
  isoWeekYear : Int
  deriving DecidableEq, Repr

/-- The field a date operator extracts. -/
def DateOp.read (op : DateOp) (p : DateParts) : Int :=
  match op with
  | DateOp.year => p.year
  | DateOp.month => p.month
  | DateOp.dayOfMonth => p.dayOfMonth
  | DateOp.hour => p.hour
  | DateOp.minute => p.minute
  | DateOp.second => p.second
  | DateOp.isoWeek => p.isoWeek
  | DateOp.isoWeekYear => p.isoWeekYear

/-- Values of the expressions: integers (`int`/`long`), doubles (kept as the
exact rational they denote) and strings. -/
inductive Value where
  | long (n : Int) : Value
  | double (q : ℚ) : Value
  | str (s : String) : Value
  deriving DecidableEq, Repr

/-- Binary arithmetic: integral when both operands are integers, otherwise a
double; not defined on strings. -/
def Value.arith (fi : Int → Int → Int) (fq : ℚ → ℚ → ℚ) : Value → Value → Option Value
  | Value.long a, Value.long b => some (Value.long (fi a b))
  | Value.long a, Value.double b => some (Value.double (fq a b))
  | Value.double a, Value.long b => some (Value.double (fq a b))
  | Value.double a, Value.double b => some (Value.double (fq a b))
  | _, _ => none

/-- The number a numeric value denotes. -/
def Value.toRat : Value → Option ℚ
  | Value.long a => some a
  | Value.double a => some a
  | Value.str _ => none

/-- Evaluation of an expression on a trade whose date operand has the calendar
fields `parts`. `$mod` and `$divide` by zero are errors (`none`); `$mod` of
integers is the remainder with the sign of the dividend; `$divide` yields a
double; `$ceil` keeps the type of its operand. -/
def Expr.eval (parts : DateParts) (doc : Trade) : Expr → Option Value
  | Expr.dateOp op _ => some (Value.long (op.read parts))
  | Expr.int64 n => some (Value.long n)
  | Expr.path p =>
      if p = "$pairName" then some (Value.str doc.pairName)
      else if p = "$baseToken" then some (Value.str doc.baseToken)
      else if p = "$quoteToken" then some (Value.str doc.quoteToken)
      else none
  | Expr.subtract a b =>
      match a.eval parts doc, b.eval parts doc with
      | some x, some y => Value.arith (fun m n => m - n) (fun m n => m - n) x y
      | _, _ => none
  | Expr.multiply a b =>
      match a.eval parts doc, b.eval parts doc with
      | some x, some y => Value.arith (fun m n => m * n) (fun m n => m * n) x y
      | _, _ => none
  | Expr.mod a b =>
      match a.eval parts doc, b.eval parts doc with
      | some (Value.long x), some (Value.long y) =>
          if y = 0 then none else some (Value.long (Int.tmod x y))
      | _, _ => none
  | Expr.divide a b =>
      match a.eval parts doc, b.eval parts doc with
      | some x, some y =>
          match x.toRat, y.toRat with
          | some m, some n => if n = 0 then none else some (Value.double (m / n))
          | _, _ => none
      | _, _ => none
  | Expr.ceil a =>
      match a.eval parts doc with
      | some (Value.long x) => some (Value.long x)
      | some (Value.double x) => some (Value.double (Int.ceil x))
      | _ => none

/-- The decimal fields added by the `toDecimal` stage of `GetOHLCV`:
`priceDecimal = $toDecimal $pricepoint`, `amountDecimal = $toDecimal $amount`. -/
def Trade.decimalField (t : Trade) (field : String) : ℚ :=
  if field = "$priceDecimal" then t.pricepoint
  else if field = "$amountDecimal" then t.amount
  else 0

/-- One step of an accumulator over the documents of a group, in the order
the group stage receives them; the state is `none` before the first document. -/
def Accumulator.step (acc : Accumulator) (state : Option ℚ) (doc : Trade) : Option ℚ :=
  match acc, state with
  | Accumulator.sumConst c, none => some c
  | Accumulator.sumConst c, some s => some (s + c)
  | Accumulator.sum f, none => some (doc.decimalField f)
  | Accumulator.sum f, some s => some (s + doc.decimalField f)
  | Accumulator.max f, none => some (doc.decimalField f)
  | Accumulator.max f, some s => some (if s < doc.decimalField f then doc.decimalField f else s)
  | Accumulator.min f, none => some (doc.decimalField f)
  | Accumulator.min f, some s => some (if doc.decimalField f < s then doc.decimalField f else s)
  | Accumulator.first f, none => some (doc.decimalField f)
  | Accumulator.first _, some s => some s
  | Accumulator.last f, _ => some (doc.decimalField f)

/-- The value of an accumulator on the documents of one group. -/
def Accumulator.run (acc : Accumulator) (docs : List Trade) : Option ℚ :=
  docs.foldl acc.step none

/-- The value of the field `name` of the `$group` output for one group. -/
def GroupDoc.field (g : GroupDoc) (name : String) (docs : List Trade) : Option ℚ :=
  match g.fields.lookup name with
  | some acc => acc.run docs
  | none => none

/-- The value of the component `name` of the group id (`_id`) for a trade whose
date has the calendar fields `parts`. -/
def GroupDoc.idField (g : GroupDoc) (name : String) (parts : DateParts) (doc : Trade) :
    Option Value :=
  match g.id.lookup name with
  | some e => e.eval parts doc
  | none => none

/-- The first month of the run of `d` consecutive months containing month `m`,
in the spec's words: `ceil(m / d) * d - (d - 1)`. -/
def specMonthKey (d m : Int) : Int :=
  Int.ceil ((m : ℚ) / (d : ℚ)) * d - (d - 1)

/-! ## `GetOHLCV` -/

/-- Go `types.Tick`, one candle as the store returns it. -/
structure Tick where
  pair : String
  ts : Int
  o : ℚ
  h : ℚ
  l : ℚ
  c : ℚ
  v : ℚ
  count : ℚ
  deriving DecidableEq, Repr

/-- The methods of `interfaces.TradeDao` the two services call. A Go result
`(list, err)` is a pair of optional values, `none` standing for `nil`. -/
structure TradeDao where
  Aggregate : List Stage → Option (List Tick) × Option String
  GetAllTradesByPairAddress : Address → Address → Option (List Trade) × Option String

/-- Outcome of a Go call that may stop with a run-time panic (here: index out
of range) instead of returning. -/
inductive Run (α : Type) where
  | panic : Run α
  | done (a : α) : Run α

/-- Go `OHLCVService`. -/
structure OHLCVService where
  tradeDao : TradeDao

/-- Go `TradeService`. -/
structure TradeService where
  tradeDao : TradeDao

/-- The time range `GetOHLCV` queries: `[modTime - intervalInSeconds, now]`
unless `len(timeInterval) >= 1`, in which case `timeInterval[1]` and then
`timeInterval[0]` are read. -/
def resolveRange (currentTimestamp modTime intervalInSeconds : Int) (timeInterval : List Int) :
    Run (Int × Int) :=
  let stop := timeUnix currentTimestamp
  let start := timeUnix (wrapInt64 (modTime - intervalInSeconds))
  if timeInterval.length ≥ 1 then
    match timeInterval[1]? with
    | none => Run.panic
    | some t1 =>
      match timeInterval[0]? with
      | none => Run.panic
      | some t0 => Run.done (timeUnix t0, timeUnix t1)
  else Run.done (start, stop)

/-- The pipeline `GetOHLCV` hands to `tradeDao.Aggregate` for a resolved range. -/
def buildQuery (hex : Address → String) (pairs : List PairAddresses) (duration : Int)
    (unit : String) (start stop : Int) : List Stage :=
  let sort := Stage.sort "createdAt" 1
  let toDecimal :=
    Stage.toDecimal [("priceDecimal", "$pricepoint"), ("amountDecimal", "$amount")]
  let ga := getGroupAddFieldBson "$createdAt" unit duration
  [Stage.matchStage (getMatchQuery hex start stop pairs), sort, toDecimal, Stage.group ga.1,
   Stage.addFields ga.2, Stage.sort "ts" 1]

/-- Go `OHLCVService.GetOHLCV(pairs, duration, unit, timeInterval...)`. -/
def OHLCVService.GetOHLCV (s : OHLCVService) (clk : Clock) (hex : Address → String)
    (pairs : List PairAddresses) (duration : Int) (unit : String) (timeInterval : List Int) :
    Run (Option (List Tick) × Option String) :=
  let currentTimestamp := clk.unix
  let mt := getModTime clk currentTimestamp duration unit
  match resolveRange currentTimestamp mt.1 mt.2 timeInterval with
  | Run.panic => Run.panic
  | Run.done (start, stop) =>
    let query := buildQuery hex pairs duration unit start stop
    match s.tradeDao.Aggregate query with
    | (_, some err) => Run.done (none, some err)
    | (resp, none) => Run.done (resp, none)

/-! ## Sockets and subscriptions -/

/-- A websocket connection (`*ws.Conn`), identified by a number. -/
abbrev Conn := Nat

/-- Modelled from the spec: the channel ids of `utils.GetOHLCVChannelID` and
`utils.GetTradeChannelID` (package `utils` is not among the sources). The spec
derives a channel key from (pair, bucket duration, bucket unit); the id is kept
as that tuple, and a trade channel is keyed by its pair alone. -/
inductive ChannelID where
  | ohlcv (bt qt : Address) (unit : String) (duration : Int) : ChannelID
  | trade (bt qt : Address) : ChannelID
  deriving DecidableEq, Repr

/-- Go `utils.GetOHLCVChannelID(bt, qt, unit, duration)`. -/
def GetOHLCVChannelID (bt qt : Address) (unit : String) (duration : Int) : ChannelID :=
  ChannelID.ohlcv bt qt unit duration

/-- Go `utils.GetTradeChannelID(bt, qt)`. -/
def GetTradeChannelID (bt qt : Address) : ChannelID :=
  ChannelID.trade bt qt

/-- Modelled from the spec: a socket of package `ws` (not among the sources),
the registry that maps a channel key to its set of subscribers. `refuses` is
the socket's reason, if any, to reject a subscription. -/
structure Socket where
  subscriptions : List (ChannelID × Conn)
  refuses : ChannelID → Conn → Option String

/-- Modelled from the spec: `subscribe(channelKey, subscriber)` creates the
channel if absent and adds the subscriber, or fails and leaves the registry as
it was. -/
def Socket.Subscribe (s : Socket) (id : ChannelID) (conn : Conn) : Socket × Option String :=
  match s.refuses id conn with
  | some err => (s, some err)
  | none => ({ s with subscriptions := (id, conn) :: s.subscriptions }, none)

/-- Modelled from the spec: `unsubscribe(channelKey, subscriber)` removes the
subscriber from the channel. -/
def Socket.Unsubscribe (s : Socket) (id : ChannelID) (conn : Conn) : Socket :=
  { s with subscriptions := s.subscriptions.filter fun e => !(e.1 = id ∧ e.2 = conn) }

/-- The subscriber set of a channel: the connections live updates of the
channel are delivered to. -/
def Socket.subscribers (s : Socket) (id : ChannelID) : List Conn :=
  (s.subscriptions.filter fun e => e.1 = id).map fun e => e.2

/-- The two sockets the services use: `ws.GetTradeSocket()` and
`ws.GetOHLCVSocket()`. -/
inductive SocketName where
  | tradeSocket | ohlcvSocket
  deriving DecidableEq, Repr

/-- What a message sent on a connection carries. -/
inductive Payload where
  | text (s : String) : Payload
  | coded (code message : String) : Payload
  | ticks (resp : Option (List Tick)) : Payload
  | trades (resp : Option (List Trade)) : Payload

/-- The observable actions of a subscription call. -/
inductive Event where
  | errorMessage (socket : SocketName) (conn : Conn) (p : Payload) : Event
  | initMessage (socket : SocketName) (conn : Conn) (p : Payload) : Event
  | registerUnsubscribeHandler (conn : Conn) (socket : SocketName) (id : ChannelID) : Event

/-- The process-wide state of package `ws`: its two socket registries and the
actions performed so far, oldest first. -/
structure Hub where
  tradeSocket : Socket
  ohlcvSocket : Socket
  events : List Event

/-- Go `types.Params`, the fields the OHLCV service reads. -/
structure Params where
  From : Int
  To : Int
  Duration : Int
  Units : String
  deriving DecidableEq, Repr

/-- Record an action. -/
def Hub.emit (hub : Hub) (e : Event) : Hub :=
  { hub with events := hub.events ++ [e] }

/-- Go `OHLCVService.Unsubscribe(conn, bt, qt, params)`. -/
def OHLCVService.Unsubscribe (_s : OHLCVService) (hub : Hub) (conn : Conn) (bt qt : Address)
    (params : Params) : Hub :=
  let id := GetOHLCVChannelID bt qt params.Units params.Duration
  { hub with tradeSocket := hub.tradeSocket.Unsubscribe id conn }

/-- Go `OHLCVService.Subscribe(conn, bt, qt, params)`. -/
def OHLCVService.Subscribe (s : OHLCVService) (clk : Clock) (hex : Address → String) (hub : Hub)
    (conn : Conn) (bt qt : Address) (params : Params) : Run Hub :=
  match s.GetOHLCV clk hex [{ BaseToken := bt, QuoteToken := qt }] params.Duration params.Units
      [params.From, params.To] with
  | Run.panic => Run.panic
  | Run.done (ohlcv, err) =>
    let hub := match err with
      | some e => hub.emit (Event.errorMessage SocketName.ohlcvSocket conn (Payload.text e))
      | none => hub
    let id := GetOHLCVChannelID bt qt params.Units params.Duration
    let sub := hub.ohlcvSocket.Subscribe id conn
    let hub := { hub with ohlcvSocket := sub.1 }
    let hub := match sub.2 with
      | some e => hub.emit (Event.errorMessage SocketName.ohlcvSocket conn
          (Payload.coded "UNABLE_TO_SUBSCRIBE" ("UNABLE_TO_SUBSCRIBE: " ++ e)))
      | none => hub
    let hub := hub.emit (Event.registerUnsubscribeHandler conn SocketName.ohlcvSocket id)
    Run.done (hub.emit (Event.initMessage SocketName.ohlcvSocket conn (Payload.ticks ohlcv)))

/-- Go `TradeService.Unsubscribe(conn, bt, qt)`. -/
def TradeService.Unsubscribe (_s : TradeService) (hub : Hub) (conn : Conn) (bt qt : Address) :
    Hub :=
  let id := GetTradeChannelID bt qt
  { hub with tradeSocket := hub.tradeSocket.Unsubscribe id conn }

/-- Go `TradeService.Subscribe(conn, bt, qt)`. -/
def TradeService.Subscribe (s : TradeService) (hub : Hub) (conn : Conn) (bt qt : Address) :
    Hub :=
  match s.tradeDao.GetAllTradesByPairAddress bt qt with
  | (_, some e) => hub.emit (Event.errorMessage SocketName.tradeSocket conn (Payload.text e))
  | (trades, none) =>
    let id := GetTradeChannelID bt qt
    let sub := hub.tradeSocket.Subscribe id conn
    let hub := { hub with tradeSocket := sub.1 }
    match sub.2 with
    | some e => hub.emit (Event.errorMessage SocketName.tradeSocket conn
        (Payload.coded "UNABLE_TO_REGISTER" ("UNABLE_TO_REGISTER " ++ e)))
    | none =>
      let hub := hub.emit (Event.registerUnsubscribeHandler conn SocketName.tradeSocket id)
      hub.emit (Event.initMessage SocketName.tradeSocket conn (Payload.trades trades))

/-! ## The bucket timestamp computed by the `$addFields` stage -/

/-- The integer a numeric value denotes, when it is integral. -/
def Value.toInt : Value → Option Int
  | Value.long a => some a
  | Value.double a => if a.den = 1 then some a.num else none
  | Value.str _ => none

/-- MongoDB `$dateFromParts` on calendar parts (UTC) as a BSON date; values
outside a field's range carry over into the next larger field. -/
def dateFromCalendarParts (year month day hour minute second : Int) : Int :=
  ((((dateDays year month day - 719162) * 24 + hour) * 60 + minute) * 60 + second) * 1000

/-- MongoDB `$dateFromParts` on ISO parts (UTC) as a BSON date: the Monday of
ISO week `isoWeek`, week 1 being the week that contains 4 January. Day counts
from 0001-01-01, a Monday, are congruent to the day of the week modulo 7. -/
def dateFromIsoParts (isoWeekYear isoWeek : Int) : Int :=
  let jan4 := dateDays isoWeekYear 1 4
  let monday1 := jan4 - jan4 % 7
  (monday1 + 7 * (isoWeek - 1) - 719162) * 86400 * 1000

/-- The field `ts` of the `$addFields` stage for a group whose `_id` has the
values `id`: `$dateFromParts` of the listed `$_id.` paths (a part that is not
listed takes its default) minus `t`. -/
def AddFieldsDoc.ts (a : AddFieldsDoc) (id : String → Option Value) : Option Int :=
  let part (name : String) (dflt : Int) : Option Int :=
    match a.dateFromParts.lookup name with
    | none => some dflt
    | some path => (id (path.drop 5)).bind Value.toInt
  match a.dateFromParts.lookup "isoWeekYear", a.dateFromParts.lookup "year" with
  | some _, _ =>
    match part "isoWeekYear" 1970, part "isoWeek" 1 with
    | some y, some w => some (dateFromIsoParts y w - a.minus)
    | _, _ => none
  | none, some _ =>
    match part "year" 1970, part "month" 1, part "day" 1, part "hour" 0, part "minute" 0,
        part "second" 0 with
    | some y, some m, some d, some h, some mi, some s =>
        some (dateFromCalendarParts y m d h mi s - a.minus)
    | _, _, _, _, _, _ => none
  | none, none => none

/-- The `ts` of the candle a trade is grouped into: the group id of
`getGroupAddFieldBson` evaluated on the trade, fed to its `$addFields` stage. -/
def bucketTs (key units : String) (duration : Int) (parts : DateParts) (doc : Trade) :
    Option Int :=
  let ga := getGroupAddFieldBson key units duration
  match ga.2 with
  | none => none
  | some a => a.ts fun name => ga.1.idField name parts doc

/-- The value of the whole group id (`_id`) for a trade whose date has the
calendar fields `parts`: every component with its value. The `$group` stage
puts two trades into the same bucket exactly when these values are equal. -/
def GroupDoc.idValue (g : GroupDoc) (parts : DateParts) (doc : Trade) :
    List (String × Option Value) :=
  g.id.map fun e => (e.1, e.2.eval parts doc)

/-! ## Properties of the bucket alignment -/

/-- Inside the `int64` range nothing wraps. -/
theorem wrapInt64_of_range (x : Int) (h1 : -9223372036854775808 ≤ x)
    (h2 : x < 9223372036854775808) : wrapInt64 x = x := by
  unfold wrapInt64; omega

/-- The BSON date of the epoch is 0. -/
theorem timeUnix_zero : timeUnix 0 = 0 := by
  decide

/-- Seconds whose millisecond count is an `int64` convert without wrapping. -/
theorem timeUnix_of_range (sec : Int) (h1 : -9223372036854775 ≤ sec)
    (h2 : sec ≤ 9223372036854775) : timeUnix sec = sec * 1000 := by
  unfold timeUnix
  exact wrapInt64_of_range _ (by omega) (by omega)

/-- A non-negative number is at least its remainder. -/
theorem emod_le_self_of_nonneg (a w : Int) (h0 : 0 ≤ a) (hw : 0 < w) : a % w ≤ a := by
  have h1 := Int.emod_add_ediv a w
  have h2 : 0 ≤ w * (a / w) := Int.mul_nonneg (le_of_lt hw) (Int.ediv_nonneg h0 (le_of_lt hw))
  omega

/-- Below `2^53` the conversion to `float64` is exact. -/
theorem roundNat53_of_lt (a : Nat) (h : a < 9007199254740992) : roundNat53 a = a := by
  simp [roundNat53, droppedBits, h, Nat.mod_one]

/-- A non-negative `int64` below `2^53` converts to the float of the same value. -/
theorem toFloat64_of_small (x : Int) (h0 : 0 ≤ x) (h : x < 9007199254740992) :
    toFloat64 x = Float64.num x := by
  have hx : x.toNat < 9007199254740992 := by omega
  simp [toFloat64, h0, roundNat53_of_lt _ hx]

/-- With exact conversions the alignment statement is `ts - ts mod w`. -/
theorem modAlign_exact (clk : Clock) (ts w : Int) (h0 : 0 ≤ ts) (h1 : ts < 9007199254740992)
    (hw0 : 0 < w) (hw1 : w < 9007199254740992) : modAlign clk ts w = ts - ts % w := by
  have hw : w ≠ 0 := by omega
  have hm : Int.tmod ts w = ts % w := Int.tmod_eq_emod h0 (le_of_lt hw0)
  have hlt : ts % w < w := Int.emod_lt_of_pos ts hw0
  have hge : 0 ≤ ts % w := Int.emod_nonneg ts hw
  have hle : ts % w ≤ ts := by
    have := Int.emod_add_ediv ts w
    have : 0 ≤ w * (ts / w) := Int.mul_nonneg (le_of_lt hw0) (Int.ediv_nonneg h0 (le_of_lt hw0))
    omega
  simp only [modAlign, toFloat64_of_small ts h0 h1, toFloat64_of_small w (le_of_lt hw0) hw1,
    mathMod, hw, if_false, toInt64, hm]
  rw [wrapInt64_of_range (ts % w) (by omega) (by omega)]
  exact wrapInt64_of_range _ (by omega) (by omega)

/-- C1: for the fixed-length units, a duration `d ≥ 1` and a timestamp
`0 ≤ ts < 2^53` with `d * unitSeconds < 2^53`, `getModTime` returns the width
`d * unitSeconds` and the start `ts - ts mod width`; the start is at or before
`ts`, less than one width away, and a multiple of the width. -/
theorem getModTime_fixed_units (clk : Clock) (ts d unitSeconds : Int) (unit : String)
    (hu : (unit, unitSeconds) ∈
      [("sec", 1), ("min", 60), ("hour", 3600), ("day", 86400), ("week", 604800)])
    (hd : 1 ≤ d) (h0 : 0 ≤ ts) (h1 : ts < 2 ^ 53) (hw : d * unitSeconds < 2 ^ 53) :
    getModTime clk ts d unit = (ts - ts % (d * unitSeconds), d * unitSeconds) ∧
      (getModTime clk ts d unit).1 ≤ ts ∧
      ts < (getModTime clk ts d unit).1 + (getModTime clk ts d unit).2 ∧
      (getModTime clk ts d unit).2 ∣ (getModTime clk ts d unit).1 := by
  have key : getModTime clk ts d unit = (ts - ts % (d * unitSeconds), d * unitSeconds) := by
    norm_num at h1 hw
    simp only [List.mem_cons, Prod.mk.injEq, List.mem_singleton, List.mem_nil_iff, or_false] at hu
    rcases hu with ⟨rfl, rfl⟩ | ⟨rfl, rfl⟩ | ⟨rfl, rfl⟩ | ⟨rfl, rfl⟩ | ⟨rfl, rfl⟩
    · simp only [getModTime, if_true, mul_one]
      rw [modAlign_exact clk ts d h0 h1 (by omega) (by omega)]
    · have e : wrapInt64 (d * 60) = d * 60 := wrapInt64_of_range _ (by omega) (by omega)
      simp only [getModTime, e]
      simp only [String.reduceEq, if_false, if_true]
      rw [modAlign_exact clk ts _ h0 h1 (by omega) (by omega)]
    · have e1 : wrapInt64 (d * 60) = d * 60 := wrapInt64_of_range _ (by omega) (by omega)
      have e2 : wrapInt64 (d * 60 * 60) = d * 3600 := by
        rw [wrapInt64_of_range _ (by omega) (by omega)]; ring
      simp only [getModTime, e1, e2]
      simp only [String.reduceEq, if_false, if_true]
      rw [modAlign_exact clk ts _ h0 h1 (by omega) (by omega)]
    · have e1 : wrapInt64 (d * 24) = d * 24 := wrapInt64_of_range _ (by omega) (by omega)
      have e2 : wrapInt64 (d * 24 * 60) = d * 1440 := by
        rw [wrapInt64_of_range _ (by omega) (by omega)]; ring
      have e3 : wrapInt64 (d * 1440 * 60) = d * 86400 := by
        rw [wrapInt64_of_range _ (by omega) (by omega)]; ring
      simp only [getModTime, e1, e2, e3]
      simp only [String.reduceEq, if_false, if_true]
      rw [modAlign_exact clk ts _ h0 h1 (by omega) (by omega)]
    · have e0 : wrapInt64 (d * 7) = d * 7 := wrapInt64_of_range _ (by omega) (by omega)
      have e1 : wrapInt64 (d * 7 * 24) = d * 168 := by
        rw [wrapInt64_of_range _ (by omega) (by omega)]; ring
      have e2 : wrapInt64 (d * 168 * 60) = d * 10080 := by
        rw [wrapInt64_of_range _ (by omega) (by omega)]; ring
      have e3 : wrapInt64 (d * 10080 * 60) = d * 604800 := by
        rw [wrapInt64_of_range _ (by omega) (by omega)]; ring
      simp only [getModTime, e0, e1, e2, e3]
      simp only [String.reduceEq, if_false, if_true]
      rw [modAlign_exact clk ts _ h0 h1 (by omega) (by omega)]
  have hpos : 0 < d * unitSeconds := by
    simp only [List.mem_cons, Prod.mk.injEq, List.mem_singleton, List.mem_nil_iff, or_false] at hu
    rcases hu with ⟨_, rfl⟩ | ⟨_, rfl⟩ | ⟨_, rfl⟩ | ⟨_, rfl⟩ | ⟨_, rfl⟩ <;> omega
  have hne : d * unitSeconds ≠ 0 := by omega
  have hlt := Int.emod_lt_of_pos ts hpos
  have hge := Int.emod_nonneg ts hne
  rw [key]
  refine ⟨rfl, ?_, ?_, ?_⟩
  · show ts - ts % (d * unitSeconds) ≤ ts
    omega
  · show ts < ts - ts % (d * unitSeconds) + d * unitSeconds
    omega
  · show d * unitSeconds ∣ ts - ts % (d * unitSeconds)
    exact Int.dvd_sub_of_emod_eq rfl

/-- Witness for C1: two-hour buckets at 2021-01-01 01:00:00 UTC. -/
theorem getModTime_fixed_units_witness :
    getModTime ⟨0, 2021, 1, 0⟩ 1609462800 2 "hour" = (1609459200, 7200) := by
  have h := (getModTime_fixed_units ⟨0, 2021, 1, 0⟩ 1609462800 2 3600 "hour"
    (by simp) (by decide) (by decide) (by norm_num) (by norm_num)).1
  simpa using h

/-- C3 (as stated, refuted): at 2021-01-01 00:00:00 UTC (a Friday) the one-week
bucket start of `getModTime` is 2020-12-31 00:00:00 UTC, a Thursday, not the
Monday 2020-12-28 that starts the ISO week; and at `ts = 2^53 + 1` the rounding
of `float64(ts)` leaves a start that is not a midnight at all. -/
theorem getModTime_week_not_iso_monday :
    (getModTime ⟨0, 2021, 1, 0⟩ 1609459200 1 "week").1 = 1609372800 ∧
      ¬ ((getModTime ⟨0, 2021, 1, 0⟩ 1609459200 1 "week").1 / 86400 + 3) % 7 = 0 ∧
      ¬ (getModTime ⟨0, 2021, 1, 0⟩ 9007199254740993 1 "week").1 % 86400 = 0 := by
  decide

/-- C7: with exactly one `timeInterval` entry `GetOHLCV` does not return: the
read of `timeInterval[1]` is out of range, for every service, clock, pair
list, duration, unit and entry. -/
theorem GetOHLCV_one_entry_panics (s : OHLCVService) (clk : Clock) (hex : Address → String)
    (pairs : List PairAddresses) (duration : Int) (unit : String) (t : Int) :
    s.GetOHLCV clk hex pairs duration unit [t] = Run.panic := by
  simp [OHLCVService.GetOHLCV, resolveRange]

/-- The year and the day in the year are recovered from the day count of a
date that is not the last day of a leap year. -/
theorem absDate_of_year_day (c k : Int) (hk0 : 0 ≤ k) (hk1 : k < 365) :
    absDate (365 * c + c / 4 - c / 100 + c / 400 + k) = (c + 1, k) := by
  have hD : 365 * c + c / 4 - c / 100 + c / 400 + k
      = 146097 * (c / 400) + 36524 * (c % 400 / 100) + 1461 * (c % 100 / 4) + 365 * (c % 4) + k := by
    omega
  have hc : c = 400 * (c / 400) + 100 * (c % 400 / 100) + 4 * (c % 100 / 4) + c % 4 := by omega
  have hb0 : 0 ≤ c % 400 / 100 := by omega
  have hb1 : c % 400 / 100 ≤ 3 := by omega
  have he0 : 0 ≤ c % 100 / 4 := by omega
  have he1 : c % 100 / 4 ≤ 24 := by omega
  have hf0 : 0 ≤ c % 4 := by omega
  have hf1 : c % 4 ≤ 3 := by omega
  generalize c / 400 = a at hD hc
  generalize c % 400 / 100 = b at hD hc hb0 hb1
  generalize c % 100 / 4 = e at hD hc he0 he1
  generalize c % 4 = f at hD hc hf0 hf1
  rw [hD, hc]
  generalize hE : 146097 * a + 36524 * b + 1461 * e + 365 * f + k = D
  have e1 : D / 146097 = a := by omega
  have e2 : (D - 146097 * a) / 36524 = b := by omega
  have e3 : b / 4 = 0 := by omega
  have e4 : (D - 146097 * a - 36524 * (b - 0)) / 1461 = e := by omega
  have e5 : (D - 146097 * a - 36524 * (b - 0) - 1461 * e) / 365 = f := by omega
  have e6 : f / 4 = 0 := by omega
  simp only [absDate, e1, e2, e3, e4, e5, e6, Prod.mk.injEq]
  constructor <;> omega

/-- The table `daysBefore`. -/
theorem daysBefore_values :
    daysBefore 0 = 0 ∧ daysBefore 1 = 31 ∧ daysBefore 2 = 59 ∧ daysBefore 3 = 90 ∧
    daysBefore 4 = 120 ∧ daysBefore 5 = 151 ∧ daysBefore 6 = 181 ∧ daysBefore 7 = 212 ∧
    daysBefore 8 = 243 ∧ daysBefore 9 = 273 ∧ daysBefore 10 = 304 ∧ daysBefore 11 = 334 ∧
    daysBefore 12 = 365 := by
  decide

/-- The first day of month `M + 1` of year `Y` has day-of-month 1. -/
theorem dayOfMonth_of_first (Y M : Int) (hm0 : 0 ≤ M) (hm1 : M < 12) :
    dayOfMonth (365 * (Y - 1) + (Y - 1) / 4 - (Y - 1) / 100 + (Y - 1) / 400
      + (daysBefore M + (if isLeap Y = true ∧ 2 ≤ M then 1 else 0))) = 1 := by
  obtain ⟨d0, d1, d2, d3, d4, d5, d6, d7, d8, d9, d10, d11, d12⟩ := daysBefore_values
  have hk : 0 ≤ daysBefore M + (if isLeap Y = true ∧ 2 ≤ M then 1 else 0) ∧
      daysBefore M + (if isLeap Y = true ∧ 2 ≤ M then 1 else 0) < 365 := by
    interval_cases M <;> simp only [d0, d1, d2, d3, d4, d5, d6, d7, d8, d9, d10, d11] <;>
      split_ifs <;> omega
  unfold dayOfMonth
  rw [absDate_of_year_day _ _ hk.1 hk.2]
  simp only [sub_add_cancel]
  by_cases hl : isLeap Y = true
  · simp only [hl, true_and]
    interval_cases M <;> simp only [d0, d1, d2, d3, d4, d5, d6, d7, d8, d9, d10, d11] <;>
      norm_num [d0, d1, d2, d3, d4, d5, d6, d7, d8, d9, d10, d11, d12]
  · simp only [hl, false_and, if_false, add_zero]
    interval_cases M <;> simp only [d0, d1, d2, d3, d4, d5, d6, d7, d8, d9, d10, d11] <;>
      norm_num [d0, d1, d2, d3, d4, d5, d6, d7, d8, d9, d10, d11, d12]

/-- Go `time.Date(y, m, 1, 0, 0, 0, 0, UTC).Day()` is 1 for every year and every
(also out-of-range) month. -/
theorem dayOfMonth_first (y m : Int) : dayOfMonth (dateDays y m 1) = 1 := by
  have hm0 := Int.emod_nonneg (m - 1) (by decide : (12 : Int) ≠ 0)
  have hm1 := Int.emod_lt_of_pos (m - 1) (by decide : (0 : Int) < 12)
  have hd : dateDays y m 1 = 365 * (y + (m - 1) / 12 - 1) + (y + (m - 1) / 12 - 1) / 4
      - (y + (m - 1) / 12 - 1) / 100 + (y + (m - 1) / 12 - 1) / 400
      + (daysBefore ((m - 1) % 12)
        + (if isLeap (y + (m - 1) / 12) = true ∧ 2 ≤ (m - 1) % 12 then 1 else 0)) := by
    simp only [dateDays]; ring
  rw [hd]
  exact dayOfMonth_of_first _ _ hm0 hm1

/-- C10: for unit `"month"`, every clock reading and every duration `d ≥ 1`
(with `d * 86400` an `int64`), the bucket width returned by `getModTime` is
`d * 86400` seconds, one day per unit of duration: the day count the code
takes is the day-of-month of the first day of the next month, which is 1, so
for no month length `L` in 28..31 is the width `d * L * 86400`. -/
theorem getModTime_month_width_one_day (clk : Clock) (ts d L : Int) (hd : 1 ≤ d)
    (hd' : d * 86400 < 2 ^ 63) (hL : 28 ≤ L ∧ L ≤ 31) :
    monthCaseDays clk = 1 ∧ (getModTime clk ts d "month").2 = d * 86400 ∧
      (getModTime clk ts d "month").2 ≠ d * L * 86400 := by
  norm_num at hd'
  have h1 : monthCaseDays clk = 1 := dayOfMonth_first _ _
  have e0 : wrapInt64 (d * 1) = d := by
    rw [mul_one]; exact wrapInt64_of_range _ (by omega) (by omega)
  have e1 : wrapInt64 (d * 24) = d * 24 := wrapInt64_of_range _ (by omega) (by omega)
  have e2 : wrapInt64 (d * 24 * 60) = d * 1440 := by
    rw [wrapInt64_of_range _ (by omega) (by omega)]; ring
  have e3 : wrapInt64 (d * 1440 * 60) = d * 86400 := by
    rw [wrapInt64_of_range _ (by omega) (by omega)]; ring
  have hw : (getModTime clk ts d "month").2 = d * 86400 := by
    simp only [getModTime, h1, e0, e1, e2, e3]
    simp only [String.reduceEq, if_false, if_true]
  refine ⟨h1, hw, ?_⟩
  rw [hw]
  intro h
  have : d * L * 86400 = d * 86400 * L := by ring
  rw [this] at h
  have h28 : d * 86400 * 28 ≤ d * 86400 * L :=
    Int.mul_le_mul_of_nonneg_left hL.1 (by omega)
  omega

/-- Witness for C10: January 2021 has 31 days, the one-month width is 86400. -/
theorem getModTime_month_width_one_day_witness :
    (getModTime ⟨1610000000, 2021, 1, 0⟩ 1610000000 1 "month").2 = 1 * 86400 ∧
      (getModTime ⟨1610000000, 2021, 1, 0⟩ 1610000000 1 "month").2 ≠ 1 * 31 * 86400 :=
  (getModTime_month_width_one_day ⟨1610000000, 2021, 1, 0⟩ 1610000000 1 31 (by decide)
    (by norm_num) (by decide)).2

/-! ## Properties of the subscription entry points -/

/-- C2: `OHLCVService.Unsubscribe` never changes the OHLCV socket registry (it
unsubscribes on the trade socket), so after a successful
`Subscribe(7, bt, qt, params)` on an empty hub the call
`Unsubscribe(7, bt, qt, params)` leaves connection 7 in the subscriber set of
the OHLCV channel `GetOHLCVChannelID(bt, qt, "hour", 1)`. -/
theorem OHLCVService_Unsubscribe_keeps_ohlcv_subscriber :
    (∀ (s : OHLCVService) (hub : Hub) (conn : Conn) (bt qt : Address) (params : Params),
      (s.Unsubscribe hub conn bt qt params).ohlcvSocket.subscriptions
        = hub.ohlcvSocket.subscriptions) ∧
    (∃ hub1 : Hub,
      OHLCVService.Subscribe
          ⟨⟨fun _ => (some [], none), fun _ _ => (some [], none)⟩⟩
          ⟨1610000000, 2021, 1, 0⟩ (fun a => toString a.value)
          ⟨⟨[], fun _ _ => none⟩, ⟨[], fun _ _ => none⟩, []⟩
          7 ⟨1⟩ ⟨2⟩ ⟨1609459200, 1610000000, 1, "hour"⟩ = Run.done hub1 ∧
      hub1.ohlcvSocket.subscribers (GetOHLCVChannelID ⟨1⟩ ⟨2⟩ "hour" 1) = [7] ∧
      (OHLCVService.Unsubscribe
          ⟨⟨fun _ => (some [], none), fun _ _ => (some [], none)⟩⟩
          hub1 7 ⟨1⟩ ⟨2⟩ ⟨1609459200, 1610000000, 1, "hour"⟩).ohlcvSocket.subscribers
        (GetOHLCVChannelID ⟨1⟩ ⟨2⟩ "hour" 1) = [7]) := by
  refine ⟨fun s hub conn bt qt params => rfl, ⟨_, rfl, ?_, ?_⟩⟩
  · decide
  · decide

/-! ## Properties of the group stage -/

/-- The month component of the group id evaluates to the spec's key. -/
theorem month_idField (key : String) (d : Int) (p : DateParts) (doc : Trade) (hd : 1 ≤ d)
    (hd' : d < 2 ^ 63) :
    (getGroupAddFieldBson key "month" d).1.idField "month" p doc
      = some (Value.double (specMonthKey d p.month : Int)) := by
  have hw : wrapInt64 (d - 1) = d - 1 := wrapInt64_of_range _ (by omega) (by norm_num at hd'; omega)
  have hq : (d : ℚ) ≠ 0 := by
    have : (0 : ℚ) < d := by exact_mod_cast (by omega : (0 : Int) < d)
    exact ne_of_gt this
  simp [getGroupAddFieldBson, GroupDoc.idField, List.lookup, Expr.eval, Value.arith, Value.toRat,
    DateOp.read, hw, hq, specMonthKey]

/-- The spec's key is one more than the start of the zero-based run. -/
theorem specMonthKey_run (d m : Int) (hd : 1 ≤ d) :
    specMonthKey d m = (m - 1) / d * d + 1 := by
  have hdpos : (0 : ℚ) < d := by exact_mod_cast (by omega : (0 : Int) < d)
  have hc : Int.ceil ((m : ℚ) / (d : ℚ)) = (m - 1) / d + 1 := by
    rw [Int.ceil_eq_iff]
    have h1 := Int.emod_add_ediv (m - 1) d
    have h2 := Int.emod_nonneg (m - 1) (by omega : d ≠ 0)
    have h3 := Int.emod_lt_of_pos (m - 1) (by omega : 0 < d)
    constructor
    · rw [lt_div_iff₀ hdpos]
      have : ((m - 1) / d + 1 - 1) * d < m := by nlinarith
      exact_mod_cast this
    · rw [div_le_iff₀ hdpos]
      have : m ≤ ((m - 1) / d + 1) * d := by nlinarith
      exact_mod_cast this
  unfold specMonthKey
  rw [hc]; ring

/-- The whole group id of the unit `"month"`: the year, the spec's month key
and the pair fields. -/
theorem month_idValue (key : String) (d : Int) (p : DateParts) (doc : Trade) (hd : 1 ≤ d)
    (hd' : d < 2 ^ 63) :
    (getGroupAddFieldBson key "month" d).1.idValue p doc =
      [("year", some (Value.long p.year)),
       ("month", some (Value.double (specMonthKey d p.month : Int))),
       ("pair", some (Value.str doc.pairName)),
       ("baseToken", some (Value.str doc.baseToken)),
       ("quoteToken", some (Value.str doc.quoteToken))] := by
  have hw : wrapInt64 (d - 1) = d - 1 := wrapInt64_of_range _ (by omega) (by norm_num at hd'; omega)
  have hq : (d : ℚ) ≠ 0 := by
    have : (0 : ℚ) < d := by exact_mod_cast (by omega : (0 : Int) < d)
    exact ne_of_gt this
  simp [getGroupAddFieldBson, GroupDoc.idValue, Expr.eval, Value.arith, Value.toRat,
    DateOp.read, hw, hq, specMonthKey]

/-- C4: for unit `"month"`, a calendar month `m` in 1..12 and a duration `d ≥ 1`
(an `int64`), the month component of the group key of `getGroupAddFieldBson`
is `k = ceil(m / d) * d - (d - 1)`; `k` is the first month of the run of `d`
months containing `m` (`1 ≤ k ≤ m < k + d`, `d` divides `k - 1`); two trades
get the same group key, hence the same bucket, exactly when they have the
same year, months of the same run and the same pair; and with `d = 2` months
1, 2 map to 1, months 3, 4 to 3, and November and December both to 11. -/
theorem month_group_key_is_run_start (key : String) (d : Int) (p q : DateParts)
    (doc doc2 : Trade) (hd : 1 ≤ d) (hd' : d < 2 ^ 63)
    (hm : 1 ≤ p.month ∧ p.month ≤ 12) :
    (getGroupAddFieldBson key "month" d).1.idField "month" p doc
        = some (Value.double (specMonthKey d p.month : Int)) ∧
      1 ≤ specMonthKey d p.month ∧ specMonthKey d p.month ≤ p.month ∧
      p.month < specMonthKey d p.month + d ∧ d ∣ specMonthKey d p.month - 1 ∧
      ((getGroupAddFieldBson key "month" d).1.idValue p doc
          = (getGroupAddFieldBson key "month" d).1.idValue q doc2
        ↔ p.year = q.year ∧ (p.month - 1) / d = (q.month - 1) / d ∧
          doc.pairName = doc2.pairName ∧ doc.baseToken = doc2.baseToken ∧
          doc.quoteToken = doc2.quoteToken) ∧
      (d = 2 →
        ((p.month = 1 ∨ p.month = 2) → specMonthKey d p.month = 1) ∧
        ((p.month = 3 ∨ p.month = 4) → specMonthKey d p.month = 3) ∧
        ((p.month = 11 ∨ p.month = 12) → specMonthKey d p.month = 11)) := by
  have hk := specMonthKey_run d p.month hd
  have hk' := specMonthKey_run d q.month hd
  have h1 := Int.emod_add_ediv (p.month - 1) d
  have h2 := Int.emod_nonneg (p.month - 1) (by omega : d ≠ 0)
  have h3 := Int.emod_lt_of_pos (p.month - 1) (by omega : 0 < d)
  have hmul : (p.month - 1) / d * d = d * ((p.month - 1) / d) := mul_comm _ _
  have hq0 : 0 ≤ (p.month - 1) / d := Int.ediv_nonneg (by omega) (by omega)
  have hq1 : 0 ≤ d * ((p.month - 1) / d) := Int.mul_nonneg (by omega) hq0
  have hrun : specMonthKey d p.month = specMonthKey d q.month
      ↔ (p.month - 1) / d = (q.month - 1) / d := by
    rw [hk, hk']
    constructor
    · intro h
      have h'' : (p.month - 1) / d * d = (q.month - 1) / d * d := by omega
      exact Int.eq_of_mul_eq_mul_right (by omega : d ≠ 0) h''
    · intro h
      rw [h]
  refine ⟨month_idField key d p doc hd hd', ?_, ?_, ?_, ?_, ?_, ?_⟩
  · omega
  · omega
  · omega
  · rw [hk]; exact ⟨(p.month - 1) / d, by ring⟩
  · rw [month_idValue key d p doc hd hd', month_idValue key d q doc2 hd hd', ← hrun]
    simp
  · intro h2
    subst h2
    rw [hk]
    refine ⟨?_, ?_, ?_⟩ <;> intro h <;> omega

/-- Witness for C4: with two-month buckets a trade of December and a trade of
November of the same year and pair have the same group key. -/
theorem month_group_key_is_run_start_witness :
    (getGroupAddFieldBson "$createdAt" "month" 2).1.idValue
        ⟨2021, 12, 25, 0, 0, 0, 51, 2021⟩ ⟨1640390400000, "SUCCESS", "A/B", "0xa", "0xb", 10, 1⟩
      = (getGroupAddFieldBson "$createdAt" "month" 2).1.idValue
        ⟨2021, 11, 3, 0, 0, 0, 44, 2021⟩ ⟨1635897600000, "SUCCESS", "A/B", "0xa", "0xb", 7, 2⟩ :=
  (month_group_key_is_run_start "$createdAt" 2 ⟨2021, 12, 25, 0, 0, 0, 51, 2021⟩
    ⟨2021, 11, 3, 0, 0, 0, 44, 2021⟩ ⟨1640390400000, "SUCCESS", "A/B", "0xa", "0xb", 10, 1⟩
    ⟨1635897600000, "SUCCESS", "A/B", "0xa", "0xb", 7, 2⟩ (by decide) (by norm_num)
    (by decide)).2.2.2.2.2.1.mpr ⟨by decide, by decide, by decide, by decide, by decide⟩

/-- The accumulator fields of the group stage do not depend on the unit. -/
theorem group_fields_eq (key units : String) (d : Int) :
    (getGroupAddFieldBson key units d).1.fields =
      [("count", Accumulator.sumConst 1), ("h", Accumulator.max "$priceDecimal"),
       ("l", Accumulator.min "$priceDecimal"), ("o", Accumulator.first "$priceDecimal"),
       ("c", Accumulator.last "$priceDecimal"), ("v", Accumulator.sum "$amountDecimal")] := by
  simp [getGroupAddFieldBson]

/-- Once started, `$first` keeps its value. -/
theorem first_foldl (f : String) (s : ℚ) (l : List Trade) :
    l.foldl (Accumulator.first f).step (some s) = some s := by
  induction l with
  | nil => rfl
  | cons x xs ih => simpa [List.foldl, Accumulator.step] using ih

/-- On a non-empty list `$last` ends with the field of the last document. -/
theorem last_foldl (f : String) (st : Option ℚ) (l : List Trade) (hl : l ≠ []) :
    l.foldl (Accumulator.last f).step st = some ((l.getLast hl).decimalField f) := by
  induction l generalizing st with
  | nil => exact absurd rfl hl
  | cons x xs ih =>
    cases xs with
    | nil => simp [List.foldl, Accumulator.step]
    | cons y ys =>
      have := ih (some (x.decimalField f)) (by simp)
      simpa [List.foldl, Accumulator.step] using this

/-- The value of `$sum` of a field: the running sum plus the rest. -/
theorem sum_foldl (f : String) (s : ℚ) (l : List Trade) :
    l.foldl (Accumulator.sum f).step (some s) = some (s + (l.map fun x => x.decimalField f).sum) := by
  induction l generalizing s with
  | nil => simp
  | cons x xs ih =>
    simp only [List.foldl, Accumulator.step, List.map, List.sum_cons]
    rw [ih]; congr 1; ring

/-- The value of `$sum` of a constant: the running sum plus one constant per document. -/
theorem sumConst_foldl (c s : ℚ) (l : List Trade) :
    l.foldl (Accumulator.sumConst c).step (some s) = some (s + c * l.length) := by
  induction l generalizing s with
  | nil => simp
  | cons x xs ih =>
    simp only [List.foldl, Accumulator.step, List.length_cons]
    rw [ih]; congr 1; push_cast; ring

/-- The value of `$max` is an upper bound attained by the start value or a document. -/
theorem max_foldl (f : String) (s : ℚ) (l : List Trade) :
    ∃ r, l.foldl (Accumulator.max f).step (some s) = some r ∧ s ≤ r ∧
      (∀ x ∈ l, x.decimalField f ≤ r) ∧ (r = s ∨ ∃ x ∈ l, x.decimalField f = r) := by
  induction l generalizing s with
  | nil => exact ⟨s, rfl, le_refl _, by simp, Or.inl rfl⟩
  | cons x xs ih =>
    simp only [List.foldl, Accumulator.step]
    by_cases hlt : s < x.decimalField f
    · obtain ⟨r, hr, h1, h2, h3⟩ := ih (x.decimalField f)
      refine ⟨r, by simpa [hlt] using hr, le_trans (le_of_lt hlt) h1, ?_, ?_⟩
      · intro y hy
        rcases List.mem_cons.mp hy with rfl | hy
        · exact h1
        · exact h2 y hy
      · rcases h3 with h3 | ⟨y, hy, hy'⟩
        · exact Or.inr ⟨x, List.mem_cons_self _ _, h3.symm⟩
        · exact Or.inr ⟨y, List.mem_cons_of_mem _ hy, hy'⟩
    · obtain ⟨r, hr, h1, h2, h3⟩ := ih s
      refine ⟨r, by simpa [hlt] using hr, h1, ?_, ?_⟩
      · intro y hy
        rcases List.mem_cons.mp hy with rfl | hy
        · exact le_trans (not_lt.mp hlt) h1
        · exact h2 y hy
      · rcases h3 with h3 | ⟨y, hy, hy'⟩
        · exact Or.inl h3
        · exact Or.inr ⟨y, List.mem_cons_of_mem _ hy, hy'⟩

/-- The value of `$min` is a lower bound attained by the start value or a document. -/
theorem min_foldl (f : String) (s : ℚ) (l : List Trade) :
    ∃ r, l.foldl (Accumulator.min f).step (some s) = some r ∧ r ≤ s ∧
      (∀ x ∈ l, r ≤ x.decimalField f) ∧ (r = s ∨ ∃ x ∈ l, x.decimalField f = r) := by
  induction l generalizing s with
  | nil => exact ⟨s, rfl, le_refl _, by simp, Or.inl rfl⟩
  | cons x xs ih =>
    simp only [List.foldl, Accumulator.step]
    by_cases hlt : x.decimalField f < s
    · obtain ⟨r, hr, h1, h2, h3⟩ := ih (x.decimalField f)
      refine ⟨r, by simpa [hlt] using hr, le_trans h1 (le_of_lt hlt), ?_, ?_⟩
      · intro y hy
        rcases List.mem_cons.mp hy with rfl | hy
        · exact h1
        · exact h2 y hy
      · rcases h3 with h3 | ⟨y, hy, hy'⟩
        · exact Or.inr ⟨x, List.mem_cons_self _ _, h3.symm⟩
        · exact Or.inr ⟨y, List.mem_cons_of_mem _ hy, hy'⟩
    · obtain ⟨r, hr, h1, h2, h3⟩ := ih s
      refine ⟨r, by simpa [hlt] using hr, h1, ?_, ?_⟩
      · intro y hy
        rcases List.mem_cons.mp hy with rfl | hy
        · exact le_trans h1 (not_lt.mp hlt)
        · exact h2 y hy
      · rcases h3 with h3 | ⟨y, hy, hy'⟩
        · exact Or.inl h3
        · exact Or.inr ⟨y, List.mem_cons_of_mem _ hy, hy'⟩

/-- C5: the pipeline of `GetOHLCV` sorts by `createdAt` ascending before its
group stage, and on the trades `t :: rest` of one bucket in that order the
accumulators of `getGroupAddFieldBson` give `o` = price of the first trade,
`c` = price of the last, `h` = the greatest and `l` = the least price, `v` =
the exact sum of the amounts and `count` = the number of trades. Prices
10, 7, 12, 9 give `o = 10`, `c = 9`, `h = 12`, `l = 7`, and three amounts of
`0.1` give `v = 0.3`. -/
theorem group_accumulators_ohlcv (hex : Address → String) (pairs : List PairAddresses)
    (start stop : Int) (units : String) (d : Int) (t : Trade) (rest : List Trade) :
    ((buildQuery hex pairs d units start stop)[1]? = some (Stage.sort "createdAt" 1) ∧
      (buildQuery hex pairs d units start stop)[3]?
        = some (Stage.group (getGroupAddFieldBson "$createdAt" units d).1)) ∧
    (getGroupAddFieldBson "$createdAt" units d).1.field "o" (t :: rest) = some t.pricepoint ∧
    (getGroupAddFieldBson "$createdAt" units d).1.field "c" (t :: rest)
      = some ((t :: rest).getLast (List.cons_ne_nil t rest)).pricepoint ∧
    (∃ h, (getGroupAddFieldBson "$createdAt" units d).1.field "h" (t :: rest) = some h ∧
      (∀ x ∈ t :: rest, x.pricepoint ≤ h) ∧ ∃ x ∈ t :: rest, x.pricepoint = h) ∧
    (∃ l, (getGroupAddFieldBson "$createdAt" units d).1.field "l" (t :: rest) = some l ∧
      (∀ x ∈ t :: rest, l ≤ x.pricepoint) ∧ ∃ x ∈ t :: rest, x.pricepoint = l) ∧
    (getGroupAddFieldBson "$createdAt" units d).1.field "v" (t :: rest)
      = some ((t :: rest).map fun x => x.amount).sum ∧
    (getGroupAddFieldBson "$createdAt" units d).1.field "count" (t :: rest)
      = some ((t :: rest).length : ℚ) ∧
    ((getGroupAddFieldBson "$createdAt" units d).1.field "o"
        [⟨1, "SUCCESS", "", "", "", 10, 1⟩, ⟨2, "SUCCESS", "", "", "", 7, 1⟩,
         ⟨3, "SUCCESS", "", "", "", 12, 1⟩, ⟨4, "SUCCESS", "", "", "", 9, 1⟩] = some 10 ∧
      (getGroupAddFieldBson "$createdAt" units d).1.field "c"
        [⟨1, "SUCCESS", "", "", "", 10, 1⟩, ⟨2, "SUCCESS", "", "", "", 7, 1⟩,
         ⟨3, "SUCCESS", "", "", "", 12, 1⟩, ⟨4, "SUCCESS", "", "", "", 9, 1⟩] = some 9 ∧
      (getGroupAddFieldBson "$createdAt" units d).1.field "h"
        [⟨1, "SUCCESS", "", "", "", 10, 1⟩, ⟨2, "SUCCESS", "", "", "", 7, 1⟩,
         ⟨3, "SUCCESS", "", "", "", 12, 1⟩, ⟨4, "SUCCESS", "", "", "", 9, 1⟩] = some 12 ∧
      (getGroupAddFieldBson "$createdAt" units d).1.field "l"
        [⟨1, "SUCCESS", "", "", "", 10, 1⟩, ⟨2, "SUCCESS", "", "", "", 7, 1⟩,
         ⟨3, "SUCCESS", "", "", "", 12, 1⟩, ⟨4, "SUCCESS", "", "", "", 9, 1⟩] = some 7 ∧
      (getGroupAddFieldBson "$createdAt" units d).1.field "v"
        [⟨1, "SUCCESS", "", "", "", 5, 1 / 10⟩, ⟨2, "SUCCESS", "", "", "", 5, 1 / 10⟩,
         ⟨3, "SUCCESS", "", "", "", 5, 1 / 10⟩] = some (3 / 10)) := by
  have hp : ∀ x : Trade, x.decimalField "$priceDecimal" = x.pricepoint := fun x => by
    simp [Trade.decimalField]
  have ha : ∀ x : Trade, x.decimalField "$amountDecimal" = x.amount := fun x => by
    simp [Trade.decimalField]
  refine ⟨⟨by simp [buildQuery], by simp [buildQuery]⟩, ?_, ?_, ?_, ?_, ?_, ?_, ?_⟩
  · simp only [GroupDoc.field, group_fields_eq, List.lookup, Accumulator.run]
    simp [List.foldl, Accumulator.step, first_foldl, hp]
  · simp only [GroupDoc.field, group_fields_eq, List.lookup, Accumulator.run]
    simp [last_foldl "$priceDecimal" none (t :: rest) (List.cons_ne_nil t rest), hp]
  · obtain ⟨r, hr, h1, h2, h3⟩ := max_foldl "$priceDecimal" t.pricepoint rest
    refine ⟨r, ?_, ?_, ?_⟩
    · simp only [GroupDoc.field, group_fields_eq, List.lookup, Accumulator.run]
      simpa [List.foldl, Accumulator.step, hp] using hr
    · intro x hx
      rcases List.mem_cons.mp hx with rfl | hx
      · exact h1
      · simpa [hp] using h2 x hx
    · rcases h3 with h3 | ⟨y, hy, hy'⟩
      · exact ⟨t, List.mem_cons_self _ _, h3.symm⟩
      · exact ⟨y, List.mem_cons_of_mem _ hy, by simpa [hp] using hy'⟩
  · obtain ⟨r, hr, h1, h2, h3⟩ := min_foldl "$priceDecimal" t.pricepoint rest
    refine ⟨r, ?_, ?_, ?_⟩
    · simp only [GroupDoc.field, group_fields_eq, List.lookup, Accumulator.run]
      simpa [List.foldl, Accumulator.step, hp] using hr
    · intro x hx
      rcases List.mem_cons.mp hx with rfl | hx
      · exact h1
      · simpa [hp] using h2 x hx
    · rcases h3 with h3 | ⟨y, hy, hy'⟩
      · exact ⟨t, List.mem_cons_self _ _, h3.symm⟩
      · exact ⟨y, List.mem_cons_of_mem _ hy, by simpa [hp] using hy'⟩
  · simp only [GroupDoc.field, group_fields_eq, List.lookup, Accumulator.run]
    simp [List.foldl, Accumulator.step, sum_foldl, ha]
  · simp only [GroupDoc.field, group_fields_eq, List.lookup, Accumulator.run]
    simp [List.foldl, Accumulator.step, sumConst_foldl]
    ring
  · simp only [GroupDoc.field, group_fields_eq, List.lookup, Accumulator.run]
    refine ⟨?_, ?_, ?_, ?_, ?_⟩ <;>
      simp [List.foldl, Accumulator.step, Trade.decimalField] <;> norm_num

/-! ## Properties of the trade filter -/

/-- The loop of `getMatchQuery` appends one `$and` document per pair, in order. -/
theorem or_loop_eq_map (hex : Address → String) (pairs : List PairAddresses)
    (acc : List (List PairDoc)) :
    pairs.foldl
        (fun or pair => or ++ [[{ baseToken := hex pair.BaseToken,
                                  quoteToken := hex pair.QuoteToken : PairDoc }]])
        acc
      = acc ++ pairs.map fun pair =>
          [{ baseToken := hex pair.BaseToken, quoteToken := hex pair.QuoteToken : PairDoc }] := by
  induction pairs generalizing acc with
  | nil => simp
  | cons p ps ih => simp [List.foldl, ih]

/-- C6: the predicate built by `getMatchQuery(start, end, pairs...)` accepts a
trade exactly when its status is `"SUCCESS"`, `start ≤ createdAt < end`, and
the pair list is empty or the trade's `(baseToken, quoteToken)` equals the
`(BaseToken.Hex(), QuoteToken.Hex())` of a listed pair; with an empty pair
list the document has no `$or` key. -/
theorem getMatchQuery_accepts_iff (hex : Address → String) (start stop : Int)
    (pairs : List PairAddresses) (t : Trade) :
    ((getMatchQuery hex start stop pairs).accepts t = true ↔
      t.status = "SUCCESS" ∧ start ≤ t.createdAt ∧ t.createdAt < stop ∧
        (pairs = [] ∨ ∃ p ∈ pairs,
          t.baseToken = hex p.BaseToken ∧ t.quoteToken = hex p.QuoteToken)) ∧
    (getMatchQuery hex start stop []).or = none := by
  refine ⟨?_, by simp [getMatchQuery]⟩
  cases pairs with
  | nil =>
    simp [getMatchQuery, MatchDoc.accepts]
    tauto
  | cons p ps =>
    simp only [getMatchQuery, List.length_cons, ge_iff_le, le_add_iff_nonneg_left, zero_le,
      if_true, or_loop_eq_map, List.nil_append, MatchDoc.accepts]
    simp [PairDoc.holds]
    tauto

/-! ## Repeated alignment -/

/-- The bits dropped by the rounding never exceed the number itself. -/
theorem two_pow_droppedBits_le (fuel a : Nat) (h : 0 < a) : 2 ^ droppedBits a fuel ≤ a := by
  induction fuel generalizing a with
  | zero => simpa [droppedBits] using h
  | succ n ih =>
    unfold droppedBits
    split
    · simpa using h
    · rename_i hlt
      have ha : 0 < a / 2 := by omega
      have := ih (a / 2) ha
      rw [pow_succ]
      omega

/-- Rounding to a 53 bit significand sends no positive number to zero. -/
theorem roundNat53_pos (a : Nat) (h : 0 < a) : 0 < roundNat53 a := by
  have hle := two_pow_droppedBits_le 11 a h
  have hp : 0 < 2 ^ droppedBits a 11 := Nat.pow_pos (by decide)
  have hq : 0 < a / 2 ^ droppedBits a 11 := Nat.div_pos hle hp
  unfold roundNat53
  simp only
  split
  · exact Nat.mul_pos (by omega) hp
  · exact Nat.mul_pos hq hp

/-- The float of a non-zero `int64` is a non-zero number. -/
theorem toFloat64_ne_zero (w : Int) (hw : w ≠ 0) :
    ∃ W : Int, toFloat64 w = Float64.num W ∧ W ≠ 0 := by
  unfold toFloat64
  split
  · refine ⟨_, rfl, ?_⟩
    have := roundNat53_pos w.toNat (by omega)
    omega
  · refine ⟨_, rfl, ?_⟩
    have := roundNat53_pos (-w).toNat (by omega)
    omega

/-- For `0 ≤ ts < 2^53` and a non-zero width the aligned time is a multiple of
the float of the width, lies in `[0, ts]`, and is left unchanged by a second
alignment. -/
theorem modAlign_idempotent (clk : Clock) (ts w : Int) (h0 : 0 ≤ ts)
    (h1 : ts < 9007199254740992) (hw : w ≠ 0) :
    modAlign clk (modAlign clk ts w) w = modAlign clk ts w := by
  obtain ⟨W, hW, hW0⟩ := toFloat64_ne_zero w hw
  have hr0 : 0 ≤ Int.tmod ts W := Int.tmod_nonneg W h0
  have hrle : Int.tmod ts W ≤ ts := by
    have h := Int.tmod_add_tdiv ts W
    have hd : 0 ≤ W * (Int.tdiv ts W) := by
      rcases le_or_lt 0 W with hWp | hWn
      · exact Int.mul_nonneg hWp (Int.tdiv_nonneg h0 hWp)
      · have : Int.tdiv ts W ≤ 0 := Int.tdiv_nonpos h0 (le_of_lt hWn)
        nlinarith
    omega
  have hfirst : modAlign clk ts w = ts - Int.tmod ts W := by
    simp only [modAlign, toFloat64_of_small ts h0 h1, hW, mathMod, hW0, if_false, toInt64]
    rw [wrapInt64_of_range (Int.tmod ts W) (by omega) (by omega)]
    exact wrapInt64_of_range _ (by omega) (by omega)
  have hdvd : W ∣ ts - Int.tmod ts W := by
    have h := Int.tmod_add_tdiv ts W
    exact ⟨Int.tdiv ts W, by omega⟩
  have hzero : Int.tmod (ts - Int.tmod ts W) W = 0 := Int.tmod_eq_zero_of_dvd hdvd
  rw [hfirst]
  simp only [modAlign, toFloat64_of_small (ts - Int.tmod ts W) (by omega) (by omega), hW, mathMod,
    hW0, if_false, toInt64, hzero]
  rw [wrapInt64_of_range 0 (by decide) (by decide)]
  simpa using wrapInt64_of_range (ts - Int.tmod ts W) (by omega) (by omega)

/-- The width returned by `getModTime` does not depend on the timestamp, and
when it is not zero the start is the alignment of the timestamp to it. -/
theorem getModTime_shape (clk : Clock) (ts ts2 d : Int) (unit : String) :
    (getModTime clk ts2 d unit).2 = (getModTime clk ts d unit).2 ∧
      ((getModTime clk ts d unit).2 ≠ 0 →
        (getModTime clk ts d unit).1 = modAlign clk ts (getModTime clk ts d unit).2) := by
  unfold getModTime
  split_ifs <;> simp

/-- C8 (as stated, refuted): with three-second buckets and `ts = 2^53 + 1`,
`float64(ts)` rounds to `2^53`, the first alignment gives `2^53 - 1` and
aligning that again gives `2^53 - 2`; and with unit `"min"` and duration `2^62`
the width wraps to 0, `math.Mod` is `NaN`, and where `int64(NaN)` is `-2^63`
the start of `ts = 0` is `-2^63`, which a second alignment sends back to 0. -/
theorem getModTime_not_idempotent :
    (getModTime ⟨0, 2021, 1, 0⟩ 9007199254740993 3 "sec").1 = 9007199254740991 ∧
      (getModTime ⟨0, 2021, 1, 0⟩ 9007199254740991 3 "sec").1 = 9007199254740990 ∧
      ¬ (getModTime ⟨0, 2021, 1, 0⟩
            (getModTime ⟨0, 2021, 1, 0⟩ 9007199254740993 3 "sec").1 3 "sec").1
          = (getModTime ⟨0, 2021, 1, 0⟩ 9007199254740993 3 "sec").1 ∧
      ¬ (getModTime ⟨0, 2021, 1, -9223372036854775808⟩
            (getModTime ⟨0, 2021, 1, -9223372036854775808⟩ 0 4611686018427387904 "min").1
            4611686018427387904 "min").1
          = (getModTime ⟨0, 2021, 1, -9223372036854775808⟩ 0 4611686018427387904 "min").1 := by
  decide

/-- C8 (amended): for every unit and duration, with the clock reading held
fixed, every timestamp `0 ≤ ts < 2^53` and a bucket width that is not zero,
`getModTime` applied to the start it returned gives that start again. -/
theorem getModTime_idempotent (clk : Clock) (ts d : Int) (unit : String) (h0 : 0 ≤ ts)
    (h1 : ts < 2 ^ 53) (hw : (getModTime clk ts d unit).2 ≠ 0) :
    (getModTime clk (getModTime clk ts d unit).1 d unit).1 = (getModTime clk ts d unit).1 := by
  norm_num at h1
  have hs := getModTime_shape clk ts (getModTime clk ts d unit).1 d unit
  have hw2 : (getModTime clk (getModTime clk ts d unit).1 d unit).2 ≠ 0 := by rw [hs.1]; exact hw
  have hs2 := getModTime_shape clk (getModTime clk ts d unit).1 ts d unit
  rw [hs2.2 hw2, hs.1, hs.2 hw]
  exact modAlign_idempotent clk ts _ h0 h1 hw

/-- Witness for C8 (amended): two-month buckets at 2021-01-01 00:00:00 UTC. -/
theorem getModTime_idempotent_witness :
    (getModTime ⟨1610000000, 2021, 1, 0⟩
        (getModTime ⟨1610000000, 2021, 1, 0⟩ 1609459200 2 "month").1 2 "month").1
      = (getModTime ⟨1610000000, 2021, 1, 0⟩ 1609459200 2 "month").1 :=
  getModTime_idempotent ⟨1610000000, 2021, 1, 0⟩ 1609459200 2 "month" (by decide) (by norm_num)
    (by decide)

/-! ## Unrecognised units and the time range of `GetOHLCV` -/

/-- C9 (as stated, refuted): for the unit `"fortnight"` `getModTime` returns the
pair `(0, 0)` and `GetOHLCV`, asked of a store that answers every pipeline with
an empty candle list, returns that list with a nil error. -/
theorem unknown_unit_returns_result :
    getModTime ⟨1610000000, 2021, 1, 0⟩ 1609459200 1 "fortnight" = (0, 0) ∧
      OHLCVService.GetOHLCV ⟨⟨fun _ => (some [], none), fun _ _ => (some [], none)⟩⟩
          ⟨1610000000, 2021, 1, 0⟩ (fun a => toString a.value) [] 1 "fortnight" []
        = Run.done (some [], none) := by
  constructor
  · decide
  · rfl

/-- C9 (amended): for every unit string other than `sec`, `min`, `hour`, `day`,
`week`, `month` and `year` and other than the `yr` of the docstring,
`getModTime` returns `(0, 0)`,
`getGroupAddFieldBson` returns a group id holding only `pair`, `baseToken` and
`quoteToken` together with a nil `addFields` stage, and `GetOHLCV` (with no or
two `timeInterval` entries) sends its pipeline to the store and returns what
the store returns, so an error arises only when the store reports one. -/
theorem unknown_unit_is_not_rejected (s : OHLCVService) (clk : Clock) (hex : Address → String)
    (pairs : List PairAddresses) (key : String) (ts d : Int) (unit : String)
    (hu : unit ∉ ["sec", "min", "hour", "day", "week", "month", "year", "yr"]) :
    getModTime clk ts d unit = (0, 0) ∧
      (getGroupAddFieldBson key unit d).2 = none ∧
      (getGroupAddFieldBson key unit d).1.id =
        [("pair", Expr.path "$pairName"), ("baseToken", Expr.path "$baseToken"),
         ("quoteToken", Expr.path "$quoteToken")] ∧
      s.GetOHLCV clk hex pairs d unit [] =
        (match s.tradeDao.Aggregate
            (buildQuery hex pairs d unit (timeUnix 0) (timeUnix clk.unix)) with
          | (_, some err) => Run.done (none, some err)
          | (resp, none) => Run.done (resp, none)) ∧
      ∀ t0 t1 : Int, s.GetOHLCV clk hex pairs d unit [t0, t1] =
        (match s.tradeDao.Aggregate
            (buildQuery hex pairs d unit (timeUnix t0) (timeUnix t1)) with
          | (_, some err) => Run.done (none, some err)
          | (resp, none) => Run.done (resp, none)) := by
  simp only [List.mem_cons, List.mem_singleton, List.mem_nil_iff, or_false, not_or] at hu
  obtain ⟨h1, h2, h3, h4, h5, h6, h7, _⟩ := hu
  have hm : ∀ x : Int, getModTime clk x d unit = (0, 0) := fun x => by
    simp [getModTime, h1, h2, h3, h4, h5, h6, h7]
  have hz : wrapInt64 0 = 0 := by decide
  refine ⟨hm ts, ?_, ?_, ?_, ?_⟩
  · simp [getGroupAddFieldBson, h1, h2, h3, h4, h5, h6, h7]
  · simp [getGroupAddFieldBson, h1, h2, h3, h4, h5, h6, h7]
  · simp [OHLCVService.GetOHLCV, resolveRange, hm, hz]
  · intro t0 t1
    simp [OHLCVService.GetOHLCV, resolveRange]

/-- Witness for C9 (amended): the unit `"quarter"`. -/
theorem unknown_unit_is_not_rejected_witness :
    getModTime ⟨1610000000, 2021, 1, 0⟩ 1609459200 1 "quarter" = (0, 0) :=
  (unknown_unit_is_not_rejected ⟨⟨fun _ => (some [], none), fun _ _ => (some [], none)⟩⟩
    ⟨1610000000, 2021, 1, 0⟩ (fun a => toString a.value) [] "$createdAt" 1609459200 1 "quarter"
    (by decide)).1

/-- With no or two `timeInterval` entries `GetOHLCV` returns. -/
theorem GetOHLCV_zero_or_two_entries_return (s : OHLCVService) (clk : Clock)
    (hex : Address → String) (pairs : List PairAddresses) (duration : Int) (unit : String)
    (t0 t1 : Int) :
    (∃ r, s.GetOHLCV clk hex pairs duration unit [] = Run.done r) ∧
      ∃ r, s.GetOHLCV clk hex pairs duration unit [t0, t1] = Run.done r := by
  constructor
  · simp only [OHLCVService.GetOHLCV, resolveRange, List.length_nil, ge_iff_le, nonpos_iff_eq_zero,
      one_ne_zero, if_false]
    rcases s.tradeDao.Aggregate _ with ⟨resp, _ | err⟩
    · exact ⟨_, rfl⟩
    · exact ⟨_, rfl⟩
  · simp only [OHLCVService.GetOHLCV, resolveRange]
    simp only [List.length_cons, List.length_nil, ge_iff_le, le_add_iff_nonneg_left, zero_le,
      if_true, List.getElem?_cons_succ, List.getElem?_cons_zero]
    rcases s.tradeDao.Aggregate _ with ⟨resp, _ | err⟩
    · exact ⟨_, rfl⟩
    · exact ⟨_, rfl⟩

/-- The trade service unsubscribes on the socket it subscribed on: after
`TradeService.Unsubscribe` the connection is not a subscriber of the channel. -/
theorem TradeService_Unsubscribe_removes (s : TradeService) (hub : Hub) (conn : Conn)
    (bt qt : Address) :
    conn ∉ (s.Unsubscribe hub conn bt qt).tradeSocket.subscribers (GetTradeChannelID bt qt) := by
  simp [TradeService.Unsubscribe, Socket.Unsubscribe, Socket.subscribers]

/-! ## The width of year buckets -/

/-- The day count of the `"year"` case: from 30 November of the previous year
to 1 January of the next year, 397 days, or 398 when the current year is a
leap year. -/
theorem yearCaseDays_eq (clk : Clock) :
    yearCaseDays clk = 397 + (if isLeap clk.year = true then 1 else 0) := by
  obtain ⟨d0, d1, d2, d3, d4, d5, d6, d7, d8, d9, d10, d11, d12⟩ := daysBefore_values
  have hdiff : dateDays (clk.year + 1) 1 1 - dateDays clk.year 0 0
      = 397 + (if isLeap clk.year = true then 1 else 0) := by
    have hl : ∀ y : Int, isLeap y = true ↔ (y % 4 = 0 ∧ (y % 100 ≠ 0 ∨ y % 400 = 0)) := by
      intro y; simp [isLeap]
    have e1 : ((0 : Int) - 1) / 12 = -1 := by decide
    have e2 : ((0 : Int) - 1) % 12 = 11 := by decide
    simp only [dateDays, sub_self, Int.zero_ediv, Int.zero_emod, add_zero, d0, e1, e2, d11]
    by_cases h1 : isLeap clk.year = true <;> by_cases h2 : isLeap (clk.year + -1) = true <;>
      simp only [h1, h2, true_and, false_and, if_true, if_false] <;>
      rw [hl] at h1 h2 <;> norm_num <;> omega
  unfold yearCaseDays
  rw [Int.mul_ediv_cancel _ (by decide : (24 : Int) ≠ 0), hdiff]
  split_ifs <;> decide

/-- C11: for unit `"year"`, every clock reading and every duration `d ≥ 1`
(with `d * 398 * 86400` an `int64`), the bucket width returned by `getModTime`
is `d * 397 * 86400` seconds, or `d * 398 * 86400` in a leap year: the
subtracted date `Date(year, 0, 0)` is 30 November of the previous year, so the
width is never `d * D * 86400` for the length `D` (365 or 366) of the year. -/
theorem getModTime_year_width (clk : Clock) (ts d D : Int) (hd : 1 ≤ d)
    (hd' : d * 398 * 86400 < 2 ^ 63) (hD : D = 365 ∨ D = 366) :
    (getModTime clk ts d "year").2
        = d * (397 + (if isLeap clk.year = true then 1 else 0)) * 86400 ∧
      (getModTime clk ts d "year").2 ≠ d * D * 86400 := by
  norm_num at hd'
  have hy := yearCaseDays_eq clk
  generalize hk : (397 + (if isLeap clk.year = true then 1 else 0) : Int) = k at hy
  have hk' : k = 397 ∨ k = 398 := by
    rw [← hk]; split_ifs <;> simp
  have hdk : d * 397 ≤ d * k ∧ d * k ≤ d * 398 := by
    rcases hk' with rfl | rfl <;> constructor <;> omega
  generalize hm : d * k = m at hdk
  have e0 : wrapInt64 (d * k) = m := by
    rw [hm]; exact wrapInt64_of_range _ (by omega) (by omega)
  have e1 : wrapInt64 (m * 24) = m * 24 := wrapInt64_of_range _ (by omega) (by omega)
  have e2 : wrapInt64 (m * 24 * 60) = m * 1440 := by
    rw [wrapInt64_of_range _ (by omega) (by omega)]; ring
  have e3 : wrapInt64 (m * 1440 * 60) = m * 86400 := by
    rw [wrapInt64_of_range _ (by omega) (by omega)]; ring
  have hw : (getModTime clk ts d "year").2 = m * 86400 := by
    simp only [getModTime, hy, e0, e1, e2, e3]
    simp only [String.reduceEq, if_false, if_true]
  have hdD : d * D ≤ d * 366 := by
    rcases hD with rfl | rfl <;> omega
  refine ⟨hw, ?_⟩
  rw [hw]
  intro h
  have : d * D * 86400 = (d * D) * 86400 := rfl
  generalize d * D = n at h hdD
  omega

/-- Witness for C11: in 2021 (365 days) the one-year width is 397 days. -/
theorem getModTime_year_width_witness :
    (getModTime ⟨1610000000, 2021, 1, 0⟩ 1610000000 1 "year").2 = 34300800 ∧
      (getModTime ⟨1610000000, 2021, 1, 0⟩ 1610000000 1 "year").2 ≠ 1 * 365 * 86400 := by
  have h := getModTime_year_width ⟨1610000000, 2021, 1, 0⟩ 1610000000 1 365 (by decide)
    (by norm_num) (Or.inl rfl)
  refine ⟨?_, h.2⟩
  rw [h.1]
  decide

/-! ## The time range and the result of `GetOHLCV` -/

/-- For a non-negative `int64` timestamp and a width `0 < w < 2^53` the aligned
time is the timestamp minus some remainder `0 ≤ r < w`, which below `2^53` is
the remainder of the timestamp itself. -/
theorem modAlign_within_width (clk : Clock) (ts w : Int) (h0 : 0 ≤ ts)
    (h1 : ts < 9223372036854775808) (hw0 : 0 < w) (hw1 : w < 9007199254740992) :
    ∃ r, modAlign clk ts w = ts - r ∧ 0 ≤ r ∧ r < w ∧ (ts < 9007199254740992 → r = ts % w) := by
  have hF : toFloat64 ts = Float64.num (roundNat53 ts.toNat) := by simp [toFloat64, h0]
  have hFn : (0 : Int) ≤ (roundNat53 ts.toNat : Int) := Int.ofNat_nonneg _
  have hr0 : 0 ≤ Int.tmod (roundNat53 ts.toNat : Int) w := Int.tmod_nonneg w hFn
  have hr1 : Int.tmod (roundNat53 ts.toNat : Int) w < w := Int.tmod_lt_of_pos _ hw0
  refine ⟨Int.tmod (roundNat53 ts.toNat : Int) w, ?_, hr0, hr1, ?_⟩
  · have hw : w ≠ 0 := by omega
    simp only [modAlign, hF, toFloat64_of_small w (le_of_lt hw0) hw1, mathMod, hw, if_false,
      toInt64]
    rw [wrapInt64_of_range (Int.tmod (roundNat53 ts.toNat : Int) w) (by omega) (by omega)]
    exact wrapInt64_of_range _ (by omega) (by omega)
  · intro hlt
    have hx : ts.toNat < 9007199254740992 := by omega
    rw [roundNat53_of_lt _ hx, Int.toNat_of_nonneg h0]
    exact Int.tmod_eq_emod h0 (le_of_lt hw0)

/-- The fixed-length widths: without overflow the width is `d * unitSeconds`. -/
theorem getModTime_fixed_width (clk : Clock) (ts d unitSeconds : Int) (unit : String)
    (hu : (unit, unitSeconds) ∈
      [("sec", 1), ("min", 60), ("hour", 3600), ("day", 86400), ("week", 604800)])
    (hd : 1 ≤ d) (hw : d * unitSeconds < 9007199254740992) :
    getModTime clk ts d unit = (modAlign clk ts (d * unitSeconds), d * unitSeconds) := by
  simp only [List.mem_cons, Prod.mk.injEq, List.mem_singleton, List.mem_nil_iff, or_false] at hu
  rcases hu with ⟨rfl, rfl⟩ | ⟨rfl, rfl⟩ | ⟨rfl, rfl⟩ | ⟨rfl, rfl⟩ | ⟨rfl, rfl⟩
  · simp only [getModTime, if_true, mul_one]
  · have e : wrapInt64 (d * 60) = d * 60 := wrapInt64_of_range _ (by omega) (by omega)
    simp only [getModTime, e]
    simp only [String.reduceEq, if_false, if_true]
  · have e1 : wrapInt64 (d * 60) = d * 60 := wrapInt64_of_range _ (by omega) (by omega)
    have e2 : wrapInt64 (d * 60 * 60) = d * 3600 := by
      rw [wrapInt64_of_range _ (by omega) (by omega)]; ring
    simp only [getModTime, e1, e2]
    simp only [String.reduceEq, if_false, if_true]
  · have e1 : wrapInt64 (d * 24) = d * 24 := wrapInt64_of_range _ (by omega) (by omega)
    have e2 : wrapInt64 (d * 24 * 60) = d * 1440 := by
      rw [wrapInt64_of_range _ (by omega) (by omega)]; ring
    have e3 : wrapInt64 (d * 1440 * 60) = d * 86400 := by
      rw [wrapInt64_of_range _ (by omega) (by omega)]; ring
    simp only [getModTime, e1, e2, e3]
    simp only [String.reduceEq, if_false, if_true]
  · have e0 : wrapInt64 (d * 7) = d * 7 := wrapInt64_of_range _ (by omega) (by omega)
    have e1 : wrapInt64 (d * 7 * 24) = d * 168 := by
      rw [wrapInt64_of_range _ (by omega) (by omega)]; ring
    have e2 : wrapInt64 (d * 168 * 60) = d * 10080 := by
      rw [wrapInt64_of_range _ (by omega) (by omega)]; ring
    have e3 : wrapInt64 (d * 10080 * 60) = d * 604800 := by
      rw [wrapInt64_of_range _ (by omega) (by omega)]; ring
    simp only [getModTime, e0, e1, e2, e3]
    simp only [String.reduceEq, if_false, if_true]

/-- The first stage of the pipeline is the `$match` document of the range. -/
theorem buildQuery_match_range (hex : Address → String) (pairs : List PairAddresses)
    (d : Int) (unit : String) (start stop : Int) :
    (buildQuery hex pairs d unit start stop)[0]?
        = some (Stage.matchStage (getMatchQuery hex start stop pairs)) ∧
      (getMatchQuery hex start stop pairs).createdAtGte = start ∧
      (getMatchQuery hex start stop pairs).createdAtLt = stop := by
  refine ⟨by simp [buildQuery], ?_, ?_⟩ <;>
    · unfold getMatchQuery
      split_ifs <;> rfl

/-- C12 (as stated, refuted): at the aligned instant 2021-01-01 00:00:00 UTC
with one-hour buckets the default range is `[now - 3600 s, now)`, exactly one
bucket width and not more; with unit `"sec"` and duration `2^62` the start
`-2^62` s becomes the BSON date 0, so the range is shorter than one width;
and at `now = 9223372036854776` with one-second buckets the BSON date of `now`
wraps to a negative `int64` and the range ends before it starts. -/
theorem default_range_not_more_than_one_width :
    resolveRange 1609459200 (getModTime ⟨1609459200, 2021, 1, 0⟩ 1609459200 1 "hour").1
        (getModTime ⟨1609459200, 2021, 1, 0⟩ 1609459200 1 "hour").2 []
      = Run.done (1609455600000, 1609459200000) ∧
    ¬ 1000 * (getModTime ⟨1609459200, 2021, 1, 0⟩ 1609459200 1 "hour").2
        < 1609459200000 - 1609455600000 ∧
    resolveRange 1609459200
        (getModTime ⟨1609459200, 2021, 1, 0⟩ 1609459200 4611686018427387904 "sec").1
        (getModTime ⟨1609459200, 2021, 1, 0⟩ 1609459200 4611686018427387904 "sec").2 []
      = Run.done (0, 1609459200000) ∧
    ¬ 1000 * (getModTime ⟨1609459200, 2021, 1, 0⟩ 1609459200 4611686018427387904 "sec").2
        ≤ 1609459200000 - 0 ∧
    resolveRange 9223372036854776
        (getModTime ⟨9223372036854776, 2021, 1, 0⟩ 9223372036854776 1 "sec").1
        (getModTime ⟨9223372036854776, 2021, 1, 0⟩ 9223372036854776 1 "sec").2 []
      = Run.done (9223372036854775000, -9223372036854775616) := by
  refine ⟨?_, ?_, ?_, ?_, ?_⟩
  · rfl
  · decide
  · rfl
  · decide
  · rfl

/-- C12 (amended): with no `timeInterval` entry `GetOHLCV` puts into its
`$match` stage the range `start = getModTime(now, duration, unit).start - width`,
`end = now`; for a fixed-length unit, a duration `d ≥ 1` with
`d * unitSeconds < 2^53` and a reading `now ≥ 0` whose BSON date is an `int64`
(`now * 1000 < 2^63`) this range ends at `now` and is at least one and less
than two bucket widths long, and for `now < 2^53` its length is
`width + (now mod width)`. With two entries the range is `timeInterval[0]`,
`timeInterval[1]` whatever the clock, the duration and the unit are. -/
theorem GetOHLCV_time_range (s : OHLCVService) (clk : Clock) (hex : Address → String)
    (pairs : List PairAddresses) (d unitSeconds t0 t1 : Int) (unit : String)
    (hu : (unit, unitSeconds) ∈
      [("sec", 1), ("min", 60), ("hour", 3600), ("day", 86400), ("week", 604800)])
    (hd : 1 ≤ d) (hw : d * unitSeconds < 2 ^ 53) (h0 : 0 ≤ clk.unix)
    (h1 : clk.unix * 1000 < 2 ^ 63) :
    (∃ start stop : Int,
      resolveRange clk.unix (getModTime clk clk.unix d unit).1
          (getModTime clk clk.unix d unit).2 [] = Run.done (start, stop) ∧
      start = 1000 * ((getModTime clk clk.unix d unit).1 - (getModTime clk clk.unix d unit).2) ∧
      stop = 1000 * clk.unix ∧
      (getModTime clk clk.unix d unit).2 = d * unitSeconds ∧
      1000 * (d * unitSeconds) ≤ stop - start ∧ stop - start < 2 * (1000 * (d * unitSeconds)) ∧
      (clk.unix < 2 ^ 53 →
        stop - start = 1000 * (d * unitSeconds + clk.unix % (d * unitSeconds))) ∧
      s.GetOHLCV clk hex pairs d unit [] =
        (match s.tradeDao.Aggregate (buildQuery hex pairs d unit start stop) with
          | (_, some err) => Run.done (none, some err)
          | (resp, none) => Run.done (resp, none)) ∧
      (buildQuery hex pairs d unit start stop)[0]?
        = some (Stage.matchStage (getMatchQuery hex start stop pairs)) ∧
      (getMatchQuery hex start stop pairs).createdAtGte = start ∧
      (getMatchQuery hex start stop pairs).createdAtLt = stop) ∧
    (∀ (clk2 : Clock) (d2 : Int) (unit2 : String),
      resolveRange clk2.unix (getModTime clk2 clk2.unix d2 unit2).1
          (getModTime clk2 clk2.unix d2 unit2).2 [t0, t1]
        = Run.done (timeUnix t0, timeUnix t1) ∧
      s.GetOHLCV clk2 hex pairs d2 unit2 [t0, t1] =
        (match s.tradeDao.Aggregate
            (buildQuery hex pairs d2 unit2 (timeUnix t0) (timeUnix t1)) with
          | (_, some err) => Run.done (none, some err)
          | (resp, none) => Run.done (resp, none)) ∧
      (getMatchQuery hex (timeUnix t0) (timeUnix t1) pairs).createdAtGte = timeUnix t0 ∧
      (getMatchQuery hex (timeUnix t0) (timeUnix t1) pairs).createdAtLt = timeUnix t1) := by
  norm_num at hw h1
  have hpos : 0 < d * unitSeconds := by
    simp only [List.mem_cons, Prod.mk.injEq, List.mem_singleton, List.mem_nil_iff, or_false] at hu
    rcases hu with ⟨_, rfl⟩ | ⟨_, rfl⟩ | ⟨_, rfl⟩ | ⟨_, rfl⟩ | ⟨_, rfl⟩ <;> omega
  have hg := getModTime_fixed_width clk clk.unix d unitSeconds unit hu hd hw
  obtain ⟨r, hr, hr0, hr1, hrx⟩ :=
    modAlign_within_width clk clk.unix (d * unitSeconds) h0 (by omega) hpos hw
  have hrle : clk.unix < 9007199254740992 → r ≤ clk.unix := by
    intro hlt
    rw [hrx hlt]
    exact emod_le_self_of_nonneg _ _ h0 hpos
  have hlow : -9007199254740992 < clk.unix - r - d * unitSeconds := by
    rcases lt_or_le clk.unix 9007199254740992 with hlt | hge
    · have := hrle hlt
      omega
    · omega
  have hwrap : wrapInt64 (clk.unix - r - d * unitSeconds) = clk.unix - r - d * unitSeconds :=
    wrapInt64_of_range _ (by omega) (by omega)
  have hstart : timeUnix (clk.unix - r - d * unitSeconds)
      = (clk.unix - r - d * unitSeconds) * 1000 := timeUnix_of_range _ (by omega) (by omega)
  have hstop : timeUnix clk.unix = clk.unix * 1000 := timeUnix_of_range _ (by omega) (by omega)
  have hres : resolveRange clk.unix (getModTime clk clk.unix d unit).1
      (getModTime clk clk.unix d unit).2 []
        = Run.done ((clk.unix - r - d * unitSeconds) * 1000, clk.unix * 1000) := by
    rw [hg]
    simp [resolveRange, hr, hwrap, hstart, hstop]
  refine ⟨⟨(clk.unix - r - d * unitSeconds) * 1000, clk.unix * 1000, hres, ?_, by ring, ?_, ?_,
    ?_, ?_, ?_, buildQuery_match_range hex pairs d unit _ _⟩, ?_⟩
  · rw [hg]; simp only [hr]; ring
  · rw [hg]
  · omega
  · omega
  · intro hlt
    norm_num at hlt
    rw [← hrx hlt]
    ring
  · simp only [OHLCVService.GetOHLCV, hres]
  · intro clk2 d2 unit2
    refine ⟨by simp [resolveRange], by simp [OHLCVService.GetOHLCV, resolveRange],
      (buildQuery_match_range hex pairs d2 unit2 _ _).2.1,
      (buildQuery_match_range hex pairs d2 unit2 _ _).2.2⟩

/-- Witness for C12 (amended): one-hour buckets at 2021-01-01 00:30:00 UTC; the
range is `[2020-12-31 23:00:00, 2021-01-01 00:30:00)`. -/
theorem GetOHLCV_time_range_witness :
    ∃ start stop : Int,
      resolveRange 1609461000 (getModTime ⟨1609461000, 2021, 1, 0⟩ 1609461000 1 "hour").1
          (getModTime ⟨1609461000, 2021, 1, 0⟩ 1609461000 1 "hour").2 []
        = Run.done (start, stop) ∧
      stop - start = 1000 * (1 * 3600 + 1609461000 % (1 * 3600)) := by
  obtain ⟨⟨start, stop, h1, _, _, _, _, _, h7, _⟩, _⟩ :=
    GetOHLCV_time_range ⟨⟨fun _ => (some [], none), fun _ _ => (some [], none)⟩⟩
      ⟨1609461000, 2021, 1, 0⟩ (fun a => toString a.value) [] 1 3600 0 1 "hour" (by simp)
      (by decide) (by norm_num) (by decide) (by norm_num)
  exact ⟨start, stop, h1, h7 (by norm_num)⟩

/-- Unless exactly one `timeInterval` entry is given, the range resolves. -/
theorem resolveRange_done (now modTime interval : Int) (timeInterval : List Int)
    (h : timeInterval.length ≠ 1) :
    ∃ range, resolveRange now modTime interval timeInterval = Run.done range := by
  match timeInterval, h with
  | [], _ => exact ⟨(timeUnix (wrapInt64 (modTime - interval)), timeUnix now), by
      simp [resolveRange]⟩
  | [_], h => exact absurd rfl h
  | a :: b :: rest, _ => exact ⟨(timeUnix a, timeUnix b), by simp [resolveRange]⟩

/-- Whenever `GetOHLCV` reaches the store (any number of `timeInterval`
entries other than one) it sends one pipeline to `Aggregate` and returns: an
error exactly when `Aggregate` returned one, then that very error with a nil
candle list, and otherwise the store's list unchanged with a nil error, so an
empty store result is returned as an empty result. -/
theorem GetOHLCV_error_iff_store_error (s : OHLCVService) (clk : Clock) (hex : Address → String)
    (pairs : List PairAddresses) (duration : Int) (unit : String) (timeInterval : List Int)
    (h : timeInterval.length ≠ 1) :
    ∃ (start stop : Int) (out : Option (List Tick)) (outErr : Option String),
      s.GetOHLCV clk hex pairs duration unit timeInterval = Run.done (out, outErr) ∧
      outErr = (s.tradeDao.Aggregate (buildQuery hex pairs duration unit start stop)).2 ∧
      (outErr ≠ none → out = none) ∧
      (outErr = none →
        out = (s.tradeDao.Aggregate (buildQuery hex pairs duration unit start stop)).1) ∧
      ((s.tradeDao.Aggregate (buildQuery hex pairs duration unit start stop)) = (some [], none) →
        out = some [] ∧ outErr = none) := by
  obtain ⟨⟨start, stop⟩, hr⟩ := resolveRange_done clk.unix
    (getModTime clk clk.unix duration unit).1 (getModTime clk clk.unix duration unit).2
    timeInterval h
  refine ⟨start, stop, ?_⟩
  simp only [OHLCVService.GetOHLCV, hr]
  rcases hagg : s.tradeDao.Aggregate (buildQuery hex pairs duration unit start stop) with
    ⟨resp, _ | err⟩
  · refine ⟨resp, none, rfl, rfl, fun h => absurd rfl h, fun _ => rfl, fun h => ?_⟩
    simp only [Prod.mk.injEq] at h
    exact ⟨h.1, rfl⟩
  · refine ⟨none, some err, rfl, rfl, fun _ => rfl, fun h => ?_, fun h => ?_⟩
    · exact absurd h (by simp)
    · simp only [Prod.mk.injEq] at h
      exact absurd h.2 (by simp)

/-- C13: with exactly one `timeInterval` entry `GetOHLCV` neither returns the
store's error nor the store's list: asked of a store that answers every
pipeline with an empty candle list, or of one that answers with an error, the
call `GetOHLCV(pairs, 1, "hour", 1609459200)` stops with a panic before the
store is reached, where the claim has it return the empty list, or the error. -/
theorem GetOHLCV_one_entry_returns_no_store_result :
    OHLCVService.GetOHLCV ⟨⟨fun _ => (some [], none), fun _ _ => (some [], none)⟩⟩
        ⟨1610000000, 2021, 1, 0⟩ (fun a => toString a.value) [] 1 "hour" [1609459200]
      = Run.panic ∧
    OHLCVService.GetOHLCV ⟨⟨fun _ => (none, some "down"), fun _ _ => (none, none)⟩⟩
        ⟨1610000000, 2021, 1, 0⟩ (fun a => toString a.value) [] 1 "hour" [1609459200]
      = Run.panic ∧
    (Run.panic : Run (Option (List Tick) × Option String)) ≠ Run.done (some [], none) ∧
    (Run.panic : Run (Option (List Tick) × Option String)) ≠ Run.done (none, some "down") := by
  refine ⟨rfl, rfl, ?_, ?_⟩ <;> intro h <;> cases h

/-! ## Units of the docstring and the candle invariant -/

/-- C14: the unit `"yr"` of the docstring of `GetOHLCV` matches no case of the
two `switch` statements, which spell it `"year"`: for every clock, timestamp,
duration and key `getModTime` returns `(0, 0)`, a width that is not positive,
and `getGroupAddFieldBson` returns a group id without time component and a
nil `addFields` stage, whereas `"year"` yields a stage. -/
theorem docstring_unit_yr_is_not_recognised (clk : Clock) (key : String) (ts d : Int) :
    getModTime clk ts d "yr" = (0, 0) ∧ ¬ 0 < (getModTime clk ts d "yr").2 ∧
      (getGroupAddFieldBson key "yr" d).2 = none ∧
      (getGroupAddFieldBson key "yr" d).1.id =
        [("pair", Expr.path "$pairName"), ("baseToken", Expr.path "$baseToken"),
         ("quoteToken", Expr.path "$quoteToken")] ∧
      (getGroupAddFieldBson key "year" d).2 ≠ none := by
  have h : getModTime clk ts d "yr" = (0, 0) := by simp [getModTime]
  refine ⟨h, by rw [h]; decide, ?_, ?_, ?_⟩ <;> simp [getGroupAddFieldBson]

/-- C16: on the trades `t :: rest` of one bucket the candle of the group
accumulators has `l ≤ o ≤ h`, `l ≤ c ≤ h`, and `l ≤ price ≤ h` for every trade
of the bucket. -/
theorem candle_low_high_invariant (key units : String) (d : Int) (t : Trade)
    (rest : List Trade) :
    ∃ o c h l : ℚ,
      (getGroupAddFieldBson key units d).1.field "o" (t :: rest) = some o ∧
      (getGroupAddFieldBson key units d).1.field "c" (t :: rest) = some c ∧
      (getGroupAddFieldBson key units d).1.field "h" (t :: rest) = some h ∧
      (getGroupAddFieldBson key units d).1.field "l" (t :: rest) = some l ∧
      l ≤ o ∧ o ≤ h ∧ l ≤ c ∧ c ≤ h ∧ ∀ x ∈ t :: rest, l ≤ x.pricepoint ∧ x.pricepoint ≤ h := by
  have hp : ∀ x : Trade, x.decimalField "$priceDecimal" = x.pricepoint := fun x => by
    simp [Trade.decimalField]
  obtain ⟨h, hh, hh1, hh2, _⟩ := max_foldl "$priceDecimal" t.pricepoint rest
  obtain ⟨l, hl, hl1, hl2, _⟩ := min_foldl "$priceDecimal" t.pricepoint rest
  have hall : ∀ x ∈ t :: rest, l ≤ x.pricepoint ∧ x.pricepoint ≤ h := by
    intro x hx
    rcases List.mem_cons.mp hx with rfl | hx
    · exact ⟨hl1, hh1⟩
    · exact ⟨by simpa [hp] using hl2 x hx, by simpa [hp] using hh2 x hx⟩
  have hlast_mem : (t :: rest).getLast (List.cons_ne_nil t rest) ∈ t :: rest :=
    List.getLast_mem _
  refine ⟨t.pricepoint, ((t :: rest).getLast (List.cons_ne_nil t rest)).pricepoint, h, l,
    ?_, ?_, ?_, ?_, hl1, hh1, (hall _ hlast_mem).1, (hall _ hlast_mem).2, hall⟩
  · simp only [GroupDoc.field, group_fields_eq, List.lookup, Accumulator.run]
    simp [List.foldl, Accumulator.step, first_foldl, hp]
  · simp only [GroupDoc.field, group_fields_eq, List.lookup, Accumulator.run]
    simp [last_foldl "$priceDecimal" none (t :: rest) (List.cons_ne_nil t rest), hp]
  · simp only [GroupDoc.field, group_fields_eq, List.lookup, Accumulator.run]
    simpa [List.foldl, Accumulator.step, hp] using hh
  · simp only [GroupDoc.field, group_fields_eq, List.lookup, Accumulator.run]
    simpa [List.foldl, Accumulator.step, hp] using hl

/-! ## Epoch alignment against calendar alignment -/

/-- The `$_id.` paths of the `$addFields` stage name the fields of the group id. -/
theorem id_path_names :
    ("$_id.year" : String).drop 5 = "year" ∧ ("$_id.month" : String).drop 5 = "month" ∧
    ("$_id.day" : String).drop 5 = "day" ∧ ("$_id.hour" : String).drop 5 = "hour" ∧
    ("$_id.minute" : String).drop 5 = "minute" ∧ ("$_id.second" : String).drop 5 = "second" ∧
    ("$_id.isoWeek" : String).drop 5 = "isoWeek" := by
  decide

/-- The bucket timestamp of the units `sec`, `min` and `hour`: the date's own
year, month, day and larger time fields, the unit's field lowered to a multiple
of the duration, and smaller fields dropped. -/
theorem bucketTs_sec_min_hour (key : String) (d : Int) (p : DateParts) (doc : Trade)
    (hd : d ≠ 0) :
    bucketTs key "sec" d p doc = some (dateFromCalendarParts p.year p.month p.dayOfMonth
        p.hour p.minute (p.second - Int.tmod p.second d)) ∧
    bucketTs key "min" d p doc = some (dateFromCalendarParts p.year p.month p.dayOfMonth
        p.hour (p.minute - Int.tmod p.minute d) 0) ∧
    bucketTs key "hour" d p doc = some (dateFromCalendarParts p.year p.month p.dayOfMonth
        (p.hour - Int.tmod p.hour d) 0 0) := by
  obtain ⟨e1, e2, e3, e4, e5, e6, _⟩ := id_path_names
  refine ⟨?_, ?_, ?_⟩ <;>
    simp [bucketTs, getGroupAddFieldBson, AddFieldsDoc.ts, GroupDoc.idField, List.lookup,
      Expr.eval, floorToMultiple, Value.arith, Value.toInt, DateOp.read, timeUnix_zero, hd,
      e1, e2, e3, e4, e5, e6]

/-- C15 (as stated, refuted): at `ts = 60` (1970-01-01 00:01:00 UTC) with
seven-second buckets `getModTime` gives the start 56, while the group key
keeps minute 1 and second `0 - 0 mod 7 = 0`, the bucket timestamp 00:01:00. -/
theorem epoch_and_calendar_alignment_differ :
    (getModTime ⟨0, 2021, 1, 0⟩ 60 7 "sec").1 = 56 ∧
      bucketTs "$createdAt" "sec" 7 ⟨1970, 1, 1, 0, 1, 0, 1, 1970⟩
        ⟨60000, "SUCCESS", "", "", "", 1, 1⟩ = some (timeUnix 60) ∧
      bucketTs "$createdAt" "sec" 7 ⟨1970, 1, 1, 0, 1, 0, 1, 1970⟩
        ⟨60000, "SUCCESS", "", "", "", 1, 1⟩
          ≠ some (timeUnix (getModTime ⟨0, 2021, 1, 0⟩ 60 7 "sec").1) := by
  have h1 : (getModTime ⟨0, 2021, 1, 0⟩ 60 7 "sec").1 = 56 := by decide
  have h2 : bucketTs "$createdAt" "sec" 7 ⟨1970, 1, 1, 0, 1, 0, 1, 1970⟩
      ⟨60000, "SUCCESS", "", "", "", 1, 1⟩ = some (timeUnix 60) := by rfl
  refine ⟨h1, h2, ?_⟩
  rw [h1, h2]
  decide

/-- C15 (amended): for the units `sec`, `min` and `hour`, a duration `d ≥ 1`
that divides the size of the unit's calendar field (60, 60 and 24) and a
timestamp `0 ≤ ts < 2^53` with the calendar fields `second = ts mod 60`,
`minute = (ts / 60) mod 60`, `hour = (ts / 3600) mod 24` on the day
`ts / 86400`, the bucket start of `getModTime` is the bucket timestamp that
the group key and the `$addFields` stage of `getGroupAddFieldBson` define. -/
theorem epoch_alignment_eq_calendar_alignment (clk : Clock) (key unit : String)
    (ts d size : Int) (p : DateParts) (doc : Trade)
    (hu : (unit, size) ∈ [("sec", 60), ("min", 60), ("hour", 24)])
    (hd : 1 ≤ d) (hdiv : d ∣ size) (h0 : 0 ≤ ts) (h1 : ts < 2 ^ 53)
    (hs : p.second = ts % 60) (hm : p.minute = ts / 60 % 60) (hh : p.hour = ts / 3600 % 24)
    (hday : dateDays p.year p.month p.dayOfMonth - 719162 = ts / 86400) :
    bucketTs key unit d p doc = some (timeUnix (getModTime clk ts d unit).1) := by
  norm_num at h1
  obtain ⟨b1, b2, b3⟩ := bucketTs_sec_min_hour key d p doc (by omega)
  have ts1 : Int.tmod (ts % 60) d = ts % 60 % d :=
    Int.tmod_eq_emod (by omega) (by omega)
  have ts2 : Int.tmod (ts / 60 % 60) d = ts / 60 % 60 % d :=
    Int.tmod_eq_emod (by omega) (by omega)
  have ts3 : Int.tmod (ts / 3600 % 24) d = ts / 3600 % 24 % d :=
    Int.tmod_eq_emod (by omega) (by omega)
  have hle : d ≤ size := by
    simp only [List.mem_cons, Prod.mk.injEq, List.mem_singleton, List.mem_nil_iff, or_false]
      at hu
    rcases hu with ⟨_, rfl⟩ | ⟨_, rfl⟩ | ⟨_, rfl⟩ <;> exact Int.le_of_dvd (by decide) hdiv
  obtain ⟨k, hk⟩ := hdiv
  simp only [List.mem_cons, Prod.mk.injEq, List.mem_singleton, List.mem_nil_iff, or_false] at hu
  rcases hu with ⟨rfl, rfl⟩ | ⟨rfl, rfl⟩ | ⟨rfl, rfl⟩
  · rw [b1, getModTime_fixed_width clk ts d 1 "sec" (by simp) hd (by omega)]
    simp only [mul_one, modAlign_exact clk ts d h0 h1 (by omega) (by omega),
      dateFromCalendarParts, hday, hs, hm, hh, ts1, Option.some.injEq]
    have hr0 := Int.emod_nonneg ts (by omega : d ≠ 0)
    have hr1 := emod_le_self_of_nonneg ts d h0 (by omega)
    rw [timeUnix_of_range (ts - ts % d) (by omega) (by omega)]
    clear hr0 hr1
    clear b1 b2 b3 hs hm hh hday ts1 ts2 ts3
    interval_cases d <;> omega
  · rw [b2, getModTime_fixed_width clk ts d 60 "min" (by simp) hd (by omega)]
    simp only [modAlign_exact clk ts (d * 60) h0 h1 (by omega) (by omega),
      dateFromCalendarParts, hday, hs, hm, hh, ts2, Option.some.injEq]
    have hr0 := Int.emod_nonneg ts (by omega : (d * 60) ≠ 0)
    have hr1 := emod_le_self_of_nonneg ts (d * 60) h0 (by omega)
    rw [timeUnix_of_range (ts - ts % (d * 60)) (by omega) (by omega)]
    clear hr0 hr1
    clear b1 b2 b3 hs hm hh hday ts1 ts2 ts3
    interval_cases d <;> omega
  · rw [b3, getModTime_fixed_width clk ts d 3600 "hour" (by simp) hd (by omega)]
    simp only [modAlign_exact clk ts (d * 3600) h0 h1 (by omega) (by omega),
      dateFromCalendarParts, hday, hs, hm, hh, ts3, Option.some.injEq]
    have hr0 := Int.emod_nonneg ts (by omega : (d * 3600) ≠ 0)
    have hr1 := emod_le_self_of_nonneg ts (d * 3600) h0 (by omega)
    rw [timeUnix_of_range (ts - ts % (d * 3600)) (by omega) (by omega)]
    clear hr0 hr1
    clear b1 b2 b3 hs hm hh hday ts1 ts2 ts3
    interval_cases d <;> omega

/-- Witness for C15 (amended): five-minute buckets at 2021-01-01 00:33:07 UTC. -/
theorem epoch_alignment_eq_calendar_alignment_witness :
    bucketTs "$createdAt" "min" 5 ⟨2021, 1, 1, 0, 33, 7, 53, 2020⟩
        ⟨1609461187000, "SUCCESS", "", "", "", 1, 1⟩
      = some (timeUnix (getModTime ⟨0, 2021, 1, 0⟩ 1609461187 5 "min").1) :=
  epoch_alignment_eq_calendar_alignment ⟨0, 2021, 1, 0⟩ "$createdAt" "min" 1609461187 5 60
    ⟨2021, 1, 1, 0, 33, 7, 53, 2020⟩ ⟨1609461187000, "SUCCESS", "", "", "", 1, 1⟩
    (by simp) (by decide) (by decide) (by decide) (by norm_num) (by decide) (by decide)
    (by decide) (by decide)

/-! ## Range of the group keys -/

/-- The time component of the units `sec`, `min`, `hour`, `day` and `week`:
the field minus its remainder modulo the duration. -/
theorem floor_idField (key : String) (d : Int) (p : DateParts) (doc : Trade) (hd : d ≠ 0) :
    (getGroupAddFieldBson key "sec" d).1.idField "second" p doc
        = some (Value.long (p.second - Int.tmod p.second d)) ∧
    (getGroupAddFieldBson key "min" d).1.idField "minute" p doc
        = some (Value.long (p.minute - Int.tmod p.minute d)) ∧
    (getGroupAddFieldBson key "hour" d).1.idField "hour" p doc
        = some (Value.long (p.hour - Int.tmod p.hour d)) ∧
    (getGroupAddFieldBson key "day" d).1.idField "day" p doc
        = some (Value.long (p.dayOfMonth - Int.tmod p.dayOfMonth d)) ∧
    (getGroupAddFieldBson key "week" d).1.idField "isoWeek" p doc
        = some (Value.long (p.isoWeek - Int.tmod p.isoWeek d)) := by
  refine ⟨?_, ?_, ?_, ?_, ?_⟩ <;>
    simp [getGroupAddFieldBson, GroupDoc.idField, List.lookup, Expr.eval, floorToMultiple,
      Value.arith, DateOp.read, hd]

/-- A field counted from zero stays in its range when lowered to a multiple of
the duration; a field counted from one drops to zero when it is below the
duration. -/
theorem floor_key_range (f d top : Int) (hd : 1 ≤ d) (h0 : 0 ≤ f) (h1 : f ≤ top) :
    0 ≤ f - Int.tmod f d ∧ f - Int.tmod f d ≤ top ∧ (f < d → f - Int.tmod f d = 0) := by
  have hm : Int.tmod f d = f % d := Int.tmod_eq_emod h0 (by omega)
  have hge := Int.emod_nonneg f (by omega : d ≠ 0)
  have hle : f % d ≤ f := by
    have := Int.emod_add_ediv f d
    have : 0 ≤ d * (f / d) := Int.mul_nonneg (by omega) (Int.ediv_nonneg h0 (by omega))
    omega
  rw [hm]
  refine ⟨by omega, by omega, fun hlt => ?_⟩
  rw [Int.emod_eq_of_lt h0 hlt]
  omega

/-- C17: with two-day buckets the first day of a month gets the day key
`1 - 1 mod 2 = 0`, and with two-week buckets ISO week 1 gets the week key 0;
neither is a day of the month (1..31) or an ISO week (1..53), while the
sibling month key of the same dates is 1. -/
theorem day_and_week_keys_can_be_zero :
    (getGroupAddFieldBson "$createdAt" "day" 2).1.idField "day"
        ⟨2021, 1, 1, 0, 0, 0, 53, 2020⟩ ⟨1609459200000, "SUCCESS", "", "", "", 1, 1⟩
      = some (Value.long 0) ∧
    (getGroupAddFieldBson "$createdAt" "week" 2).1.idField "isoWeek"
        ⟨2021, 1, 4, 0, 0, 0, 1, 2021⟩ ⟨1609718400000, "SUCCESS", "", "", "", 1, 1⟩
      = some (Value.long 0) ∧
    (getGroupAddFieldBson "$createdAt" "month" 2).1.idField "month"
        ⟨2021, 1, 1, 0, 0, 0, 53, 2020⟩ ⟨1609459200000, "SUCCESS", "", "", "", 1, 1⟩
      = some (Value.double 1) := by
  refine ⟨?_, ?_, ?_⟩
  · rw [(floor_idField "$createdAt" 2 _ _ (by decide)).2.2.2.1]; decide
  · rw [(floor_idField "$createdAt" 2 _ _ (by decide)).2.2.2.2]; decide
  · rw [month_idField "$createdAt" 2 _ _ (by decide) (by norm_num),
      specMonthKey_run 2 _ (by decide)]
    norm_num

/-! ## Error paths of the subscriptions -/

/-- The three outcomes of `TradeService.Subscribe`: a failed history query
sends one error message and nothing else; a refused subscription sends one
error message and leaves the registry as it was; otherwise the connection is
subscribed, the unsubscribe handler registered and the init message sent. -/
theorem TradeService_Subscribe_outcomes (s : TradeService) (hub : Hub) (conn : Conn)
    (bt qt : Address) :
    (∀ trades e, s.tradeDao.GetAllTradesByPairAddress bt qt = (trades, some e) →
      (s.Subscribe hub conn bt qt).events
          = hub.events ++ [Event.errorMessage SocketName.tradeSocket conn (Payload.text e)] ∧
        (s.Subscribe hub conn bt qt).tradeSocket.subscriptions
          = hub.tradeSocket.subscriptions) ∧
    (∀ trades e, s.tradeDao.GetAllTradesByPairAddress bt qt = (trades, none) →
      hub.tradeSocket.refuses (GetTradeChannelID bt qt) conn = some e →
      (s.Subscribe hub conn bt qt).events
          = hub.events ++ [Event.errorMessage SocketName.tradeSocket conn
              (Payload.coded "UNABLE_TO_REGISTER" ("UNABLE_TO_REGISTER " ++ e))] ∧
        (s.Subscribe hub conn bt qt).tradeSocket.subscriptions
          = hub.tradeSocket.subscriptions) ∧
    (∀ trades, s.tradeDao.GetAllTradesByPairAddress bt qt = (trades, none) →
      hub.tradeSocket.refuses (GetTradeChannelID bt qt) conn = none →
      (s.Subscribe hub conn bt qt).events
          = hub.events ++
            [Event.registerUnsubscribeHandler conn SocketName.tradeSocket
                (GetTradeChannelID bt qt),
             Event.initMessage SocketName.tradeSocket conn (Payload.trades trades)] ∧
        (s.Subscribe hub conn bt qt).tradeSocket.subscriptions
          = (GetTradeChannelID bt qt, conn) :: hub.tradeSocket.subscriptions) := by
  refine ⟨?_, ?_, ?_⟩
  · intro trades e h
    simp [TradeService.Subscribe, h, Hub.emit]
  · intro trades e h hr
    simp [TradeService.Subscribe, h, hr, Hub.emit, Socket.Subscribe]
  · intro trades h hr
    simp [TradeService.Subscribe, h, hr, Hub.emit, Socket.Subscribe]

/-- C18: `OHLCVService.Subscribe` does not stop after an error. With a store
whose `Aggregate` fails, on an empty hub, it sends the error message and then
still subscribes connection 7, registers the unsubscribe handler and sends an
init message; with a socket that refuses the subscription it sends the error
message and then still registers the handler and sends the init message. -/
theorem OHLCVService_Subscribe_continues_after_error :
    (∃ hub1 : Hub,
      OHLCVService.Subscribe
          ⟨⟨fun _ => (none, some "store down"), fun _ _ => (none, none)⟩⟩
          ⟨1610000000, 2021, 1, 0⟩ (fun a => toString a.value)
          ⟨⟨[], fun _ _ => none⟩, ⟨[], fun _ _ => none⟩, []⟩
          7 ⟨1⟩ ⟨2⟩ ⟨1609459200, 1610000000, 1, "hour"⟩ = Run.done hub1 ∧
      hub1.events =
        [Event.errorMessage SocketName.ohlcvSocket 7 (Payload.text "store down"),
         Event.registerUnsubscribeHandler 7 SocketName.ohlcvSocket
           (GetOHLCVChannelID ⟨1⟩ ⟨2⟩ "hour" 1),
         Event.initMessage SocketName.ohlcvSocket 7 (Payload.ticks none)] ∧
      hub1.ohlcvSocket.subscribers (GetOHLCVChannelID ⟨1⟩ ⟨2⟩ "hour" 1) = [7]) ∧
    (∃ hub1 : Hub,
      OHLCVService.Subscribe
          ⟨⟨fun _ => (some [], none), fun _ _ => (none, none)⟩⟩
          ⟨1610000000, 2021, 1, 0⟩ (fun a => toString a.value)
          ⟨⟨[], fun _ _ => none⟩, ⟨[], fun _ _ => some "refused"⟩, []⟩
          7 ⟨1⟩ ⟨2⟩ ⟨1609459200, 1610000000, 1, "hour"⟩ = Run.done hub1 ∧
      hub1.events =
        [Event.errorMessage SocketName.ohlcvSocket 7
           (Payload.coded "UNABLE_TO_SUBSCRIBE" "UNABLE_TO_SUBSCRIBE: refused"),
         Event.registerUnsubscribeHandler 7 SocketName.ohlcvSocket
           (GetOHLCVChannelID ⟨1⟩ ⟨2⟩ "hour" 1),
         Event.initMessage SocketName.ohlcvSocket 7 (Payload.ticks (some []))]) := by
  refine ⟨⟨_, rfl, rfl, ?_⟩, ⟨_, rfl, ?_⟩⟩
  · decide
  · rfl

/-! ## ISO weeks in the group key -/

/-- The group key and the bucket timestamp of the unit `"week"`: the ISO week
year and the ISO week lowered to a multiple of the duration, rebuilt into a
date by `$dateFromParts` on `isoWeekYear` and `isoWeek`. -/
theorem week_key_and_bucketTs (key : String) (d : Int) (p : DateParts) (doc : Trade)
    (hd : d ≠ 0) :
    (getGroupAddFieldBson key "week" d).1.idValue p doc =
      [("year", some (Value.long p.isoWeekYear)),
       ("isoWeek", some (Value.long (p.isoWeek - Int.tmod p.isoWeek d))),
       ("pair", some (Value.str doc.pairName)),
       ("baseToken", some (Value.str doc.baseToken)),
       ("quoteToken", some (Value.str doc.quoteToken))] ∧
    bucketTs key "week" d p doc
      = some (dateFromIsoParts p.isoWeekYear (p.isoWeek - Int.tmod p.isoWeek d)) := by
  obtain ⟨e1, _, _, _, _, _, e7⟩ := id_path_names
  constructor
  · simp [getGroupAddFieldBson, GroupDoc.idValue, Expr.eval, floorToMultiple, Value.arith,
      DateOp.read, hd]
  · simp [bucketTs, getGroupAddFieldBson, AddFieldsDoc.ts, GroupDoc.idField, List.lookup,
      Expr.eval, floorToMultiple, Value.arith, Value.toInt, DateOp.read, timeUnix_zero, hd,
      e1, e7]

/-- The date `$dateFromParts` builds from an ISO week year and an ISO week is
a Monday 00:00:00 UTC: a whole number of days which, counted from Thursday
1970-01-01, is congruent to 4 modulo 7. -/
theorem dateFromIsoParts_monday (y w : Int) :
    dateFromIsoParts y w % 86400000 = 0 ∧ (dateFromIsoParts y w / 86400000 + 3) % 7 = 0 := by
  unfold dateFromIsoParts
  simp only
  generalize dateDays y 1 4 = j
  constructor <;> omega

/-- C3 (amended): for unit `"week"`, duration 1 and `0 ≤ ts < 2^53`, the bucket
start of `getModTime` is the greatest multiple of 604800 seconds at or before
`ts`: a whole number of 7-day periods counted from the epoch, hence a Thursday
00:00:00 UTC (`days mod 7 = 0` with `days = start / 86400` counted from
Thursday 1970-01-01), not the ISO Monday. The ISO week is what the group key
of `getGroupAddFieldBson` uses: its key is the ISO week year and the ISO week
of the trade's date, and the bucket timestamp the `$addFields` stage rebuilds
from that key is a Monday 00:00:00 UTC (`(days + 3) mod 7 = 0`). -/
theorem getModTime_week_epoch_aligned (clk : Clock) (key : String) (ts : Int)
    (p : DateParts) (doc : Trade) (h0 : 0 ≤ ts) (h1 : ts < 2 ^ 53) :
    (getModTime clk ts 1 "week").1 = ts - ts % 604800 ∧
      (getModTime clk ts 1 "week").1 ≤ ts ∧
      ts < (getModTime clk ts 1 "week").1 + 604800 ∧
      (getModTime clk ts 1 "week").1 % 86400 = 0 ∧
      ((getModTime clk ts 1 "week").1 / 86400) % 7 = 0 ∧
      (getGroupAddFieldBson key "week" 1).1.idValue p doc =
        [("year", some (Value.long p.isoWeekYear)), ("isoWeek", some (Value.long p.isoWeek)),
         ("pair", some (Value.str doc.pairName)), ("baseToken", some (Value.str doc.baseToken)),
         ("quoteToken", some (Value.str doc.quoteToken))] ∧
      bucketTs key "week" 1 p doc = some (dateFromIsoParts p.isoWeekYear p.isoWeek) ∧
      dateFromIsoParts p.isoWeekYear p.isoWeek % 86400000 = 0 ∧
      (dateFromIsoParts p.isoWeekYear p.isoWeek / 86400000 + 3) % 7 = 0 := by
  have key1 : (getModTime clk ts 1 "week").1 = ts - ts % 604800 := by
    norm_num at h1
    have e : wrapInt64 (wrapInt64 (wrapInt64 (wrapInt64 (1 * 7) * 24) * 60) * 60) = 604800 := by
      decide
    simp only [getModTime, e]
    simp only [String.reduceEq, if_false, if_true]
    exact modAlign_exact clk ts 604800 h0 h1 (by decide) (by decide)
  have hw := week_key_and_bucketTs key 1 p doc (by decide)
  have ht : Int.tmod p.isoWeek 1 = 0 := Int.tmod_one _
  rw [ht, sub_zero] at hw
  have hmon := dateFromIsoParts_monday p.isoWeekYear p.isoWeek
  rw [key1]
  refine ⟨rfl, ?_, ?_, ?_, ?_, hw.1, hw.2, hmon.1, hmon.2⟩ <;> omega

/-- Witness for C3 (amended): 2021-01-01 00:00:00 UTC, a Friday of ISO week 53
of 2020; the group key's bucket timestamp is Monday 2020-12-28. -/
theorem getModTime_week_epoch_aligned_witness :
    (getModTime ⟨0, 2021, 1, 0⟩ 1609459200 1 "week").1 = 1609459200 - 1609459200 % 604800 ∧
      bucketTs "$createdAt" "week" 1 ⟨2021, 1, 1, 0, 0, 0, 53, 2020⟩
          ⟨1609459200000, "SUCCESS", "A/B", "0xa", "0xb", 10, 1⟩ = some 1609113600000 := by
  have h := getModTime_week_epoch_aligned ⟨0, 2021, 1, 0⟩ "$createdAt" 1609459200
    ⟨2021, 1, 1, 0, 0, 0, 53, 2020⟩ ⟨1609459200000, "SUCCESS", "A/B", "0xa", "0xb", 10, 1⟩
    (by decide) (by norm_num)
  refine ⟨h.1, ?_⟩
  rw [h.2.2.2.2.2.2.1]
  decide

end OHLCV
